import Mathlib

/-!
# Account ledger chaincode (`finished/chaincode_finished.go`)

A shallow embedding of the chaincode handlers `Init`, `Invoke`, `registerAccounts`,
`transfer`, `addLoyalty`, `removeLoyalty`, `GetAllAccountIds`, `GetAccount` and `Query`,
together with the parts of the Go standard library and of the ledger stub they call:

* `encoding/json` on the three Go types the handlers use (`[]string`, `map[string]int`
  and the struct `Account`),
* `strconv.ParseInt` and `strconv.ParseFloat`, with `float64` comparison, addition and
  subtraction,
* the world state behind `stub.GetState` / `stub.PutState`, whose calls may fail.

A byte string is represented by the JSON value it spells (`Bytes`).  Handlers are
state-passing functions on `Stub`; `fmt.Println` output is not part of the state.
-/

namespace Chaincode

/-! ## JSON values and the JSON text scanner -/

/-- A JSON value.  A number literal that is a plain integer (`-?(0|[1-9][0-9]*)`) is kept
by value, any other number literal (with a fraction or an exponent) by its text. -/
inductive JSON where
  | null : JSON
  | bool (b : Bool) : JSON
  | int (i : Int) : JSON
  | real (lit : String) : JSON
  | str (s : String) : JSON
  | arr (items : List JSON) : JSON
  | obj (members : List (String × JSON)) : JSON

/-- The content of a `[]byte` as far as `encoding/json` can tell: `some v` when the bytes
are a well-formed JSON text spelling `v`, `none` for every other byte string, the empty
(or nil) one included. -/
abbrev Bytes := Option JSON

/-- JSON white space. -/
def isWs (c : Char) : Bool :=
  c = ' ' || c = '\t' || c = '\n' || c = '\r'

/-- Drops leading white space. -/
def skipWs : List Char → List Char
  | [] => []
  | c :: cs => if isWs c then skipWs cs else c :: cs

/-- Decimal digit test. -/
def isDigit (c : Char) : Bool :=
  '0'.toNat ≤ c.toNat && c.toNat ≤ '9'.toNat

/-- Splits off the longest prefix of decimal digits. -/
def spanDigits : List Char → List Char × List Char
  | [] => ([], [])
  | c :: cs =>
    if isDigit c then ((spanDigits cs).1.cons c, (spanDigits cs).2) else ([], c :: cs)

/-- Value of a string of decimal digits. -/
def digitsVal (ds : List Char) : Nat :=
  ds.foldl (fun n c => 10 * n + (c.toNat - '0'.toNat)) 0

/-- Value of a hexadecimal digit. -/
def hexVal (c : Char) : Option Nat :=
  if isDigit c then some (c.toNat - '0'.toNat)
  else if 'a'.toNat ≤ c.toNat && c.toNat ≤ 'f'.toNat then some (c.toNat - 'a'.toNat + 10)
  else if 'A'.toNat ≤ c.toNat && c.toNat ≤ 'F'.toNat then some (c.toNat - 'A'.toNat + 10)
  else none

/-- Value of four hexadecimal digits (`getu4`). -/
def hex4 (a b c d : Char) : Option Nat :=
  match hexVal a, hexVal b, hexVal c, hexVal d with
  | some x, some y, some z, some w => some (((x * 16 + y) * 16 + z) * 16 + w)
  | _, _, _, _ => none

/-- The Unicode replacement character, which the decoder substitutes for a lone
surrogate escape. -/
def replacementChar : Char := Char.ofNat 0xFFFD

/-- Where the string scanner stands inside a literal: between characters, right after a
backslash, or inside a `\u` escape with `k` hexadecimal digits of value `v` read. -/
inductive StrMode where
  | plain : StrMode
  | esc : StrMode
  | hex (k v : Nat) : StrMode

/-- Appends the character for the code unit `n` of a finished `\u` escape to the reversed
output `acc`.  `pend` is a high surrogate read just before, still waiting for its partner:
a high and a low surrogate in a row give one character, every other surrogate gives
U+FFFD (`unquote`). -/
def pushUnit (pend : Option Nat) (n : Nat) (acc : List Char) : Option Nat × List Char :=
  match pend with
  | some hi =>
    if 0xDC00 ≤ n ∧ n < 0xE000 then
      (none, Char.ofNat ((hi - 0xD800) * 0x400 + (n - 0xDC00) + 0x10000) :: acc)
    else if 0xD800 ≤ n ∧ n < 0xDC00 then (some n, replacementChar :: acc)
    else (none, Char.ofNat n :: replacementChar :: acc)
  | none =>
    if 0xD800 ≤ n ∧ n < 0xDC00 then (some n, acc)
    else if 0xDC00 ≤ n ∧ n < 0xE000 then (none, replacementChar :: acc)
    else (none, Char.ofNat n :: acc)

/-- The reversed output with a still unpaired high surrogate flushed as U+FFFD. -/
def flushUnit (pend : Option Nat) (acc : List Char) : List Char :=
  match pend with
  | some _ => replacementChar :: acc
  | none => acc

/-- Scans the body of a string literal, the opening quote already consumed, and returns
the decoded string with the input left after the closing quote.  Control characters and
unknown escapes make the literal invalid. -/
def scanString : List Char → StrMode → Option Nat → List Char → Option (String × List Char)
  | [], _, _, _ => none
  | c :: rest, StrMode.plain, pend, acc =>
    if c = '"' then some (String.mk (flushUnit pend acc).reverse, rest)
    else if c = '\\' then scanString rest StrMode.esc pend acc
    else if c.toNat < 0x20 then none
    else scanString rest StrMode.plain none (c :: flushUnit pend acc)
  | c :: rest, StrMode.esc, pend, acc =>
    if c = 'u' then scanString rest (StrMode.hex 0 0) pend acc
    else if c = '"' then scanString rest StrMode.plain none ('"' :: flushUnit pend acc)
    else if c = '\\' then scanString rest StrMode.plain none ('\\' :: flushUnit pend acc)
    else if c = '/' then scanString rest StrMode.plain none ('/' :: flushUnit pend acc)
    else if c = 'b' then scanString rest StrMode.plain none (Char.ofNat 8 :: flushUnit pend acc)
    else if c = 'f' then scanString rest StrMode.plain none (Char.ofNat 12 :: flushUnit pend acc)
    else if c = 'n' then scanString rest StrMode.plain none ('\n' :: flushUnit pend acc)
    else if c = 'r' then scanString rest StrMode.plain none ('\r' :: flushUnit pend acc)
    else if c = 't' then scanString rest StrMode.plain none ('\t' :: flushUnit pend acc)
    else none
  | c :: rest, StrMode.hex k v, pend, acc =>
    match hexVal c with
    | none => none
    | some d =>
      if k = 3 then
        scanString rest StrMode.plain (pushUnit pend (v * 16 + d) acc).1
          (pushUnit pend (v * 16 + d) acc).2
      else scanString rest (StrMode.hex (k + 1) (v * 16 + d)) pend acc

/-- Scans a number literal: `-? (0 | [1-9][0-9]*) (. [0-9]+)? ([eE] [+-]? [0-9]+)?`. -/
def scanNumber (cs : List Char) : Option (JSON × List Char) :=
  let neg : Bool := cs.head? = some '-'
  let cs1 := if neg then cs.tail else cs
  let ip : List Char × List Char :=
    match cs1 with
    | [] => ([], [])
    | c :: r => if c = '0' then (['0'], r) else spanDigits (c :: r)
  if ip.1.isEmpty then none else
  let fp : Option (List Char × List Char) :=
    match ip.2 with
    | '.' :: r => if (spanDigits r).1.isEmpty then none else some ('.' :: (spanDigits r).1, (spanDigits r).2)
    | r => some ([], r)
  match fp with
  | none => none
  | some (fd, r1) =>
    let ep : Option (List Char × List Char) :=
      match r1 with
      | [] => some ([], [])
      | e :: r =>
        if e = 'e' ∨ e = 'E' then
          match r with
          | [] => none
          | s :: r2 =>
            if s = '+' ∨ s = '-' then
              if (spanDigits r2).1.isEmpty then none
              else some (e :: s :: (spanDigits r2).1, (spanDigits r2).2)
            else if (spanDigits (s :: r2)).1.isEmpty then none
            else some (e :: (spanDigits (s :: r2)).1, (spanDigits (s :: r2)).2)
        else some ([], e :: r)
    match ep with
    | none => none
    | some (ed, r2) =>
      if fd.isEmpty ∧ ed.isEmpty then
        some (JSON.int (if neg then -(digitsVal ip.1 : Int) else (digitsVal ip.1 : Int)), r2)
      else
        some (JSON.real (String.mk ((if neg then ['-'] else []) ++ ip.1 ++ fd ++ ed)), r2)

mutual
/-- Scans one JSON value, skipping white space in front of it.  The first argument bounds
the number of nested calls; `jsonScan` passes a bound no text can exhaust. -/
def scanValue : Nat → List Char → Option (JSON × List Char)
  | 0, _ => none
  | n + 1, cs =>
    match skipWs cs with
    | [] => none
    | c :: r =>
      if c = '"' then
        match scanString r StrMode.plain none [] with
        | some (s, r1) => some (JSON.str s, r1)
        | none => none
      else if c = '[' then
        match skipWs r with
        | [] => none
        | d :: r1 =>
          if d = ']' then some (JSON.arr [], r1)
          else
            match scanElems n (d :: r1) with
            | some (vs, r2) => some (JSON.arr vs, r2)
            | none => none
      else if c = '{' then
        match skipWs r with
        | [] => none
        | d :: r1 =>
          if d = '}' then some (JSON.obj [], r1)
          else
            match scanMembers n (d :: r1) with
            | some (ms, r2) => some (JSON.obj ms, r2)
            | none => none
      else if c = 'n' then
        match r with
        | 'u' :: 'l' :: 'l' :: r1 => some (JSON.null, r1)
        | _ => none
      else if c = 't' then
        match r with
        | 'r' :: 'u' :: 'e' :: r1 => some (JSON.bool true, r1)
        | _ => none
      else if c = 'f' then
        match r with
        | 'a' :: 'l' :: 's' :: 'e' :: r1 => some (JSON.bool false, r1)
        | _ => none
      else scanNumber (c :: r)
/-- Scans the elements of a non-empty array up to and including the closing bracket. -/
def scanElems : Nat → List Char → Option (List JSON × List Char)
  | 0, _ => none
  | n + 1, cs =>
    match scanValue n cs with
    | none => none
    | some (v, r) =>
      match skipWs r with
      | [] => none
      | c :: r1 =>
        if c = ',' then
          match scanElems n r1 with
          | some (vs, r2) => some (v :: vs, r2)
          | none => none
        else if c = ']' then some ([v], r1)
        else none
/-- Scans the members of a non-empty object up to and including the closing brace. -/
def scanMembers : Nat → List Char → Option (List (String × JSON) × List Char)
  | 0, _ => none
  | n + 1, cs =>
    match skipWs cs with
    | [] => none
    | q :: r =>
      if q = '"' then
        match scanString r StrMode.plain none [] with
        | none => none
        | some (k, r1) =>
          match skipWs r1 with
          | [] => none
          | c :: r2 =>
            if c = ':' then
              match scanValue n r2 with
              | none => none
              | some (v, r3) =>
                match skipWs r3 with
                | [] => none
                | d :: r4 =>
                  if d = ',' then
                    match scanMembers n r4 with
                    | some (ms, r5) => some ((k, v) :: ms, r5)
                    | none => none
                  else if d = '}' then some ([(k, v)], r4)
                  else none
            else none
      else none
end

/-- The JSON value spelled by a text, `none` when the text is not well-formed JSON: the
view `encoding/json` has of `[]byte(s)`. -/
def jsonScan (s : String) : Bytes :=
  match scanValue (2 * s.length + 2) s.data with
  | some (v, r) => if (skipWs r).isEmpty then some v else none
  | none => none

/-! ## strconv -/

/-- Result of `strconv.ParseInt(s, 10, 0)` on a platform whose `int` has 64 bits: an
optional sign and then decimal digits only, at least one; `none` stands for a non-nil
error (`ErrSyntax`, or `ErrRange` outside `[-2^63, 2^63)`). -/
def ParseInt (s : String) : Option Int :=
  let neg : Bool := s.data.head? = some '-'
  let ds : List Char := if neg ∨ s.data.head? = some '+' then s.data.tail else s.data
  if ds.isEmpty ∨ ¬ ds.all isDigit then none
  else if neg then (if digitsVal ds ≤ 2 ^ 63 then some (-(digitsVal ds : Int)) else none)
  else (if digitsVal ds < 2 ^ 63 then some (digitsVal ds : Int) else none)

/-- Wraps an integer into the range of `int64`, as Go arithmetic on `int64` does. -/
def wrap64 (x : Int) : Int :=
  (x + 2 ^ 63) % 2 ^ 64 - 2 ^ 63

/-- A value of Go's `float64` (IEEE 754 binary64): not-a-number, an infinity, or the
finite number `(-1)^neg * mant * 2^exp` in the form the format stores it, that is
`2^52 ≤ mant < 2^53` with `-1074 ≤ exp ≤ 971`, or `mant < 2^52` with `exp = -1074`. -/
inductive Float64 where
  | nan : Float64
  | inf (neg : Bool) : Float64
  | fin (neg : Bool) (mant : Nat) (exp : Int) : Float64
  deriving DecidableEq, Repr

namespace Float64

/-- Positive zero, the zero value of a `float64` variable. -/
def zero : Float64 := fin false 0 (-1074)

/-- Position of the highest set bit: `ilog2 n n` is the `k` with `2^k ≤ n < 2^(k+1)`
for `n > 0`.  The first argument bounds the number of halvings. -/
def ilog2 : Nat → Nat → Nat
  | 0, _ => 0
  | f + 1, n => if n < 2 then 0 else ilog2 f (n / 2) + 1

/-- The `float64` nearest to `(-1)^neg * n / d`, ties to the even mantissa; magnitudes
that round beyond the largest finite value give an infinity. -/
def round (neg : Bool) (n d : Nat) : Float64 :=
  if n = 0 ∨ d = 0 then fin neg 0 (-1074) else
  let k : Int := (ilog2 n n : Int) - (ilog2 d d : Int)
  let e0 : Int := if d * 2 ^ k.toNat ≤ n * 2 ^ (-k).toNat then k else k - 1
  let u : Int := max (e0 - 52) (-1074)
  let num : Nat := n * 2 ^ (-u).toNat
  let den : Nat := d * 2 ^ u.toNat
  let q : Nat := num / den
  let r : Nat := num % den
  let m : Nat := if den < 2 * r ∨ (2 * r = den ∧ q % 2 = 1) then q + 1 else q
  let m1 : Nat := if m = 2 ^ 53 then 2 ^ 52 else m
  let u1 : Int := if m = 2 ^ 53 then u + 1 else u
  if 971 < u1 then inf neg else fin neg m1 u1

/-- Sign flip. -/
def neg : Float64 → Float64
  | nan => nan
  | inf s => inf (!s)
  | fin s m e => fin (!s) m e

/-- The integer `(-1)^s * m * 2^(e + 1074)`; finite values compare and add as these. -/
def scaled (s : Bool) (m : Nat) (e : Int) : Int :=
  (if s then -1 else 1) * ((m * 2 ^ (e + 1074).toNat : Nat) : Int)

/-- The comparison `a < b` of Go: false as soon as an operand is not a number. -/
def lt : Float64 → Float64 → Bool
  | nan, _ => false
  | _, nan => false
  | inf s, inf t => s && !t
  | inf s, fin _ _ _ => s
  | fin _ _ _, inf t => !t
  | fin s m e, fin t n f => decide (scaled s m e < scaled t n f)

/-- The comparison `a <= b` of Go. -/
def le : Float64 → Float64 → Bool
  | nan, _ => false
  | _, nan => false
  | inf s, inf t => s || !t
  | inf s, fin _ _ _ => s
  | fin _ _ _, inf t => !t
  | fin s m e, fin t n f => decide (scaled s m e ≤ scaled t n f)

/-- The sum `a + b` of Go, rounded to nearest.  An exact zero sum is `+0` unless both
operands are `-0`. -/
def add : Float64 → Float64 → Float64
  | nan, _ => nan
  | _, nan => nan
  | inf s, inf t => if s = t then inf s else nan
  | inf s, fin _ _ _ => inf s
  | fin _ _ _, inf t => inf t
  | fin s m e, fin t n f =>
    let x : Int := scaled s m e + scaled t n f
    if x = 0 then fin (s && t) 0 (-1074)
    else round (decide (x < 0)) x.natAbs (2 ^ 1074)

/-- The difference `a - b` of Go. -/
def sub (a b : Float64) : Float64 :=
  add a (neg b)

/-- The `float64` a decimal constant such as `10000.0` denotes. -/
def ofNat (n : Nat) : Float64 :=
  round false n 1

end Float64

/-- The exponent digits of a floating-point text as `readFloat` accumulates them:
underscores are skipped, and digits are taken in only while the value is below 10000. -/
def expVal (ds : List Char) : Nat :=
  ds.foldl
    (fun e c => if c = '_' then e else if e < 10000 then e * 10 + (c.toNat - '0'.toNat) else e) 0

/-- Value of a mantissa digit: a decimal digit, or with a `0x` prefix a hexadecimal one. -/
def mantDigit (hex : Bool) (c : Char) : Option Nat :=
  if isDigit c then some (c.toNat - '0'.toNat)
  else if hex then hexVal c
  else none

/-- The mantissa loop of `readFloat`: digits, with underscores skipped and at most one
point among them, up to the first other character.  `mant` is the value of the digits
read, `frac` the number of them after the point, `saw` whether there was any.  The result
is `(mant, frac, saw, rest)`. -/
def scanMantissa (hex : Bool) :
    List Char → Bool → Nat → Nat → Bool → Nat × Nat × Bool × List Char
  | [], _, mant, frac, saw => (mant, frac, saw, [])
  | c :: cs, dot, mant, frac, saw =>
    if c = '_' then scanMantissa hex cs dot mant frac saw
    else if c = '.' then
      if dot then (mant, frac, saw, c :: cs) else scanMantissa hex cs true mant frac saw
    else
      match mantDigit hex c with
      | some d =>
        scanMantissa hex cs dot (mant * (if hex then 16 else 10) + d)
          (if dot then frac + 1 else frac) true
      | none => (mant, frac, saw, c :: cs)

/-- The exponent part of a floating-point text, the exponent character already consumed:
an optional sign, a digit, then digits and underscores to the end of the text.  The
result tells whether the exponent is negative, and its value. -/
def readExponent (r : List Char) : Option (Bool × Nat) :=
  match r with
  | [] => none
  | s :: r1 =>
    match (if s = '+' ∨ s = '-' then r1 else s :: r1) with
    | [] => none
    | d :: ds =>
      if isDigit d ∧ ds.all (fun c => isDigit c || c = '_') then
        some (s = '-', expVal (d :: ds))
      else none

/-- What `underscoreOK` saw last: the beginning of the number, a digit or base prefix, an
underscore, or anything else. -/
inductive Saw where
  | start : Saw
  | digit : Saw
  | under : Saw
  | other : Saw
  deriving DecidableEq

/-- The loop of `underscoreOK`: an underscore must follow a digit (or the base prefix) and
be followed by a digit. -/
def underscoreLoop (hex : Bool) : List Char → Saw → Bool
  | [], saw => saw ≠ Saw.under
  | c :: cs, saw =>
    if isDigit c ∨ (hex = true ∧ (hexVal c).isSome) then underscoreLoop hex cs Saw.digit
    else if c = '_' then
      if saw = Saw.digit then underscoreLoop hex cs Saw.under else false
    else if saw = Saw.under then false
    else underscoreLoop hex cs Saw.other

/-- The check `underscoreOK` on a number without its sign. -/
def underscoreOK (cs : List Char) : Bool :=
  match cs with
  | '0' :: p :: rest =>
    if p.toLower = 'b' ∨ p.toLower = 'o' ∨ p.toLower = 'x' then
      underscoreLoop (p.toLower = 'x') rest Saw.digit
    else underscoreLoop false cs Saw.start
  | _ => underscoreLoop false cs Saw.start

/-- The number a floating-point text without sign denotes, as a fraction `n / d`; `none`
when the text is not well-formed.  The forms are those of Go floating-point literals:
decimal digits with at most one point, at least one digit, and an optional exponent
`[eE][+-]?[0-9]+`; or, after `0x` / `0X`, hexadecimal digits with at most one point, at
least one digit, and the exponent `[pP][+-]?[0-9]+`, a power of two, which is mandatory;
underscores may separate digits. -/
def readFloat (cs : List Char) : Option (Nat × Nat) :=
  let hex : Bool :=
    match cs with
    | '0' :: x :: _ :: _ => x.toLower = 'x'
    | _ => false
  let m := scanMantissa hex (if hex then cs.drop 2 else cs) false 0 0 false
  if m.2.2.1 = false ∨ underscoreOK cs = false then none
  else
    match m.2.2.2 with
    | [] => if hex then none else some (m.1, 10 ^ m.2.1)
    | c :: r =>
      if c.toLower = (if hex then 'p' else 'e') then
        match readExponent r with
        | none => none
        | some (eneg, e) =>
          if hex then
            if eneg then some (m.1, 2 ^ (4 * m.2.1 + e)) else some (m.1 * 2 ^ e, 2 ^ (4 * m.2.1))
          else
            if eneg then some (m.1, 10 ^ (m.2.1 + e)) else some (m.1 * 10 ^ e, 10 ^ m.2.1)
      else none

/-- Result of `strconv.ParseFloat(s, 64)`; `none` stands for a non-nil error (`ErrSyntax`,
or `ErrRange` when the number rounds to an infinity).  Accepted are, in any letter case,
`nan` and the optionally signed `inf` and `infinity`, and the optionally signed forms of
`readFloat`, rounded to the nearest `float64`. -/
def ParseFloat (s : String) : Option Float64 :=
  let low : List Char := s.data.map Char.toLower
  if low = "nan".data then some Float64.nan
  else if low = "inf".data ∨ low = "+inf".data ∨ low = "infinity".data ∨ low = "+infinity".data then
    some (Float64.inf false)
  else if low = "-inf".data ∨ low = "-infinity".data then some (Float64.inf true)
  else
    let neg : Bool := s.data.head? = some '-'
    let ds : List Char := if neg ∨ s.data.head? = some '+' then s.data.tail else s.data
    match readFloat ds with
    | none => none
    | some (n, d) =>
      match Float64.round neg n d with
      | Float64.fin sg m e => some (Float64.fin sg m e)
      | _ => none

/-! ## Go values: `map[string]int`, `[]string`, `Account` and their JSON forms -/

/-- Lexicographic `<` on sequences of code points. -/
def lexLt : List Nat → List Nat → Bool
  | _, [] => false
  | [], _ :: _ => true
  | a :: as, b :: bs => if a < b then true else if a = b then lexLt as bs else false

/-- Go's `<` on strings.  Go compares the UTF-8 bytes, which orders strings as their
code points do. -/
def strLt (a b : String) : Bool :=
  lexLt (a.data.map Char.toNat) (b.data.map Char.toNat)

/-- The entries of an allocated `map[string]int`, kept in ascending key order, the order
in which `json.Marshal` writes them. -/
abbrev Entries := List (String × Int)

/-- The entries after `m[k] = v`. -/
def assign : Entries → String → Int → Entries
  | [], k, v => [(k, v)]
  | (k1, v1) :: rest, k, v =>
    if strLt k k1 then (k, v) :: (k1, v1) :: rest
    else if k = k1 then (k, v) :: rest
    else (k1, v1) :: assign rest k v

/-- A Go `map[string]int` variable: `none` is the nil map. -/
abbrev IntMap := Option Entries

/-- The value of `m[k]`: the zero value when the key is absent or the map is nil. -/
def index (m : IntMap) (k : String) : Int :=
  match m with
  | none => 0
  | some es => (es.lookup k).getD 0

/-- `json.Marshal(&m)` for a `map[string]int`: `null` for the nil map, else an object
with the keys in ascending order.  It has no error case. -/
def marshalMap (m : IntMap) : JSON :=
  match m with
  | none => JSON.null
  | some es => JSON.obj (es.map fun kv => (kv.1, JSON.int kv.2))

/-- Decoding of one JSON value into an `int` map element: an integer literal within
`int64`, or `null`, which leaves the zero value; `none` is an `UnmarshalTypeError`. -/
def decodeInt : JSON → Option Int
  | JSON.int i => if -(2 ^ 63) ≤ i ∧ i < 2 ^ 63 then some i else none
  | JSON.null => some 0
  | _ => none

/-- Decoding of the members of a JSON object into map entries, later members overriding
earlier ones with the same key; `none` when some member value does not decode. -/
def decodeMembers : List (String × JSON) → Entries → Option Entries
  | [], acc => some acc
  | (k, v) :: rest, acc =>
    match decodeInt v with
    | none => none
    | some i => decodeMembers rest (assign acc k i)

/-- `json.Unmarshal(data, &m)` for a nil `map[string]int` variable `m`; the outer `none`
stands for a non-nil error.  `null` leaves the map nil, an object allocates it. -/
def unmarshalMap (data : Bytes) : Option IntMap :=
  match data with
  | some JSON.null => some none
  | some (JSON.obj ms) =>
    match decodeMembers ms [] with
    | some es => some (some es)
    | none => none
  | _ => none

/-- Decoding of one JSON array element into a `string`: a string literal, or `null`,
which leaves the empty string; `none` is an `UnmarshalTypeError`. -/
def decodeString : JSON → Option String
  | JSON.str s => some s
  | JSON.null => some ""
  | _ => none

/-- Decoding of the elements of a JSON array into a `[]string`. -/
def decodeStrings : List JSON → Option (List String)
  | [] => some []
  | v :: rest =>
    match decodeString v, decodeStrings rest with
    | some s, some ss => some (s :: ss)
    | _, _ => none

/-- `json.Unmarshal(data, &ids)` for a nil `[]string` variable `ids`; `none` stands for a
non-nil error.  `null` leaves the slice nil, which ranges like the empty slice. -/
def unmarshalStrings (data : Bytes) : Option (List String) :=
  match data with
  | some JSON.null => some []
  | some (JSON.arr items) => decodeStrings items
  | _ => none

/-- The struct `Account`.  `loyalty` is an `int64`. -/
structure Account where
  id : String
  balance : Float64
  loyalty : Int
  deriving DecidableEq, Repr

/-- The zero value of `Account`, the content of `var account Account`. -/
def Account.zero : Account :=
  { id := "", balance := Float64.zero, loyalty := 0 }

/-- `json.Marshal(&account)` for an `Account`.  `encoding/json` writes the exported
fields of a struct only; `id`, `balance` and `loyalty` are unexported (lower-case), their
`json:"..."` tags notwithstanding, so the object written has no member.  It has no error
case. -/
def marshalAccount (_account : Account) : JSON :=
  JSON.obj []

/-- `json.Unmarshal(data, &account)` into the `Account` variable `account`; `none` stands
for a non-nil error.  The members of an object are matched against the exported fields of
the struct, of which `Account` has none, so every member is skipped and the variable
keeps its content; `null` is a no-op as well; any other JSON value is an
`UnmarshalTypeError`, and bytes that are not JSON a `SyntaxError`. -/
def unmarshalAccount (data : Bytes) (account : Account) : Option Account :=
  match data with
  | some JSON.null => some account
  | some (JSON.obj _) => some account
  | _ => none

/-! ## The ledger stub -/

/-- The ledger as one invocation sees it through `shim.ChaincodeStubInterface`: the
world state, where a key without a value reads as empty bytes, and the fate of the
coming `GetState` / `PutState` calls, in order: `true` makes the call return an error;
once the list is used up every call succeeds. -/
structure Stub where
  state : String → Bytes
  faults : List Bool

/-- `stub.GetState(key)`: `none` in the first component stands for a non-nil error. -/
def Stub.GetState (stub : Stub) (key : String) : Option Bytes × Stub :=
  match stub.faults with
  | true :: rest => (none, { stub with faults := rest })
  | false :: rest => (some (stub.state key), { stub with faults := rest })
  | [] => (some (stub.state key), stub)

/-- `stub.PutState(key, value)`: the first component tells whether the error is nil.  A
failed call writes nothing. -/
def Stub.PutState (stub : Stub) (key : String) (value : Bytes) : Bool × Stub :=
  match stub.faults with
  | true :: rest => (false, { stub with faults := rest })
  | false :: rest =>
    (true, { state := fun k => if k = key then value else stub.state k, faults := rest })
  | [] => (true, { state := fun k => if k = key then value else stub.state k, faults := [] })

/-- What a handler gives back: `([]byte, nil)`, `(nil, errors.New(msg))`, or a run-time
panic (index out of range). -/
inductive Reply where
  | ok (payload : Bytes) : Reply
  | error (msg : String) : Reply
  | panicked : Reply

/-! ## The chaincode -/

/-- Key prefix of account records. -/
def accountPrefix : String := "acct:"

/-- The shared secret. -/
def securityToken : String := "D44867B6ADB93F15D3DD77C323BF6"

/-- `Init`: stores the JSON form of a nil map under `"AccountIds"`.  The error of
`PutState` is only logged; the function returns `nil, nil` either way. -/
def Init (stub : Stub) (_function : String) (_args : List String) : Reply × Stub :=
  (Reply.ok none, (stub.PutState "AccountIds" (some (marshalMap none))).2)

/-- `GetAllAccountIds`: reads and decodes the registry. -/
def GetAllAccountIds (stub : Stub) : Except String IntMap × Stub :=
  match stub.GetState "AccountIds" with
  | (none, stub1) => (Except.error "Error retrieving account Ids", stub1)
  | (some idsBytes, stub1) =>
    match unmarshalMap idsBytes with
    | none => (Except.error "Error unmarshalling account Ids", stub1)
    | some accountIds => (Except.ok accountIds, stub1)

/-- `GetAccount`: reads and decodes the record of `id`. -/
def GetAccount (stub : Stub) (id : String) : Except String Account × Stub :=
  match stub.GetState (accountPrefix ++ id) with
  | (none, stub1) => (Except.error "Error retrieving account Ids", stub1)
  | (some accountBytes, stub1) =>
    match unmarshalAccount accountBytes Account.zero with
    | none => (Except.error "Error unmarshalling account Ids", stub1)
    | some account => (Except.ok account, stub1)

/-- The first loop of `registerAccounts`: every id is flagged 1 in the registry, and the
ids whose flag was not 1 when their turn came are appended to `newIds`. -/
def markIds : List String → Entries → List String → Entries × List String
  | [], registeredIds, newIds => (registeredIds, newIds)
  | id :: ids, registeredIds, newIds =>
    markIds ids (assign registeredIds id 1)
      (if index (some registeredIds) id ≠ 1 then newIds ++ [id] else newIds)

/-- The second loop of `registerAccounts`: writes a fresh record for each new id and
stops at the first `PutState` that fails. -/
def putAccounts : List String → Stub → Reply × Stub
  | [], stub => (Reply.ok none, stub)
  | newId :: rest, stub =>
    match stub.PutState (accountPrefix ++ newId)
        (some (marshalAccount { id := newId, balance := Float64.ofNat 10000, loyalty := 0 })) with
    | (false, stub1) => (Reply.error "Error putting account balance", stub1)
    | (true, stub1) => putAccounts rest stub1

/-- The map `registerAccounts` goes on with after `GetAllAccountIds`: the registry read,
or a fresh empty map when that is nil, which is also what a failed read returns. -/
def startRegistry (got : Except String IntMap) : Entries :=
  match got with
  | Except.ok (some es) => es
  | _ => []

/-- `registerAccounts`.  The error of `GetAllAccountIds` is overwritten unread. -/
def registerAccounts (stub : Stub) (args : List String) : Reply × Stub :=
  match args with
  | [arg] =>
    match unmarshalStrings (jsonScan arg) with
    | none => (Reply.error "registerAccounts accepts an array of account ids", stub)
    | some ids =>
      let got := GetAllAccountIds stub
      let marked := markIds ids (startRegistry got.1) []
      match got.2.PutState "AccountIds" (some (marshalMap (some marked.1))) with
      | (false, stub2) => (Reply.error "Error putting accounts", stub2)
      | (true, stub2) => putAccounts marked.2 stub2
  | _ => (Reply.error "Incorrect number of arguments. Expecting account numbers", stub)

/-- Lines 202 and 203 of `transfer`: the debit of `from` and the credit of `to`, applied
to the two accounts as they were read; the result is the pair of accounts that `transfer`
then marshals and puts, `from` first and `to` second. -/
def moveBalance (fromAccount toAccount : Account) (amount : Float64) : Account × Account :=
  ({ fromAccount with balance := Float64.sub fromAccount.balance amount },
    { toAccount with balance := Float64.add toAccount.balance amount })

/-- `transfer`. -/
def transfer (stub : Stub) (args : List String) : Reply × Stub :=
  match args with
  | [fromId, toId, amountArg, token] =>
    if token ≠ securityToken then (Reply.error "security token does not match", stub)
    else
      match GetAllAccountIds stub with
      | (Except.error _, stub1) => (Reply.error "Error gettng account ids", stub1)
      | (Except.ok registeredIds, stub1) =>
        match ParseFloat amountArg with
        | none => (Reply.error "Amount is not a number", stub1)
        | some amount =>
          if index registeredIds fromId ≠ 1 then
            (Reply.error "Erro: from account is not registered", stub1)
          else if index registeredIds toId ≠ 1 then
            (Reply.error "Error: to account is not registered", stub1)
          else
            match GetAccount stub1 fromId with
            | (Except.error _, stub2) => (Reply.error "Error getting from account", stub2)
            | (Except.ok fromAccount, stub2) =>
              if Float64.lt fromAccount.balance amount then
                (Reply.error "error not enough resources on from account", stub2)
              else
                match GetAccount stub2 toId with
                | (Except.error _, stub3) => (Reply.error "Error getting to account", stub3)
                | (Except.ok toAccount, stub3) =>
                  match stub3.PutState (accountPrefix ++ fromId)
                      (some (marshalAccount (moveBalance fromAccount toAccount amount).1)) with
                  | (false, stub4) => (Reply.error "Error putting from account", stub4)
                  | (true, stub4) =>
                    match stub4.PutState (accountPrefix ++ toId)
                        (some (marshalAccount (moveBalance fromAccount toAccount amount).2)) with
                    | (false, stub5) => (Reply.error "Error putting to account", stub5)
                    | (true, stub5) => (Reply.ok none, stub5)
  | _ => (Reply.error "Incorrect number of arguments. Expecting from, to, amount and token", stub)

/-- `addLoyalty`.  The number of points is parsed from `args[2]`, the argument that was
just compared with the security token. -/
def addLoyalty (stub : Stub) (args : List String) : Reply × Stub :=
  match args with
  | [accountId, _arg1, arg2] =>
    if arg2 ≠ securityToken then (Reply.error "security token does not match", stub)
    else
      match GetAllAccountIds stub with
      | (Except.error _, stub1) => (Reply.error "Error gettng account ids", stub1)
      | (Except.ok registeredIds, stub1) =>
        match ParseInt arg2 with
        | none => (Reply.error "Number of loyalty points  is not a number", stub1)
        | some points =>
          if index registeredIds accountId ≠ 1 then
            (Reply.error "Erro: account is not registered", stub1)
          else
            match GetAccount stub1 accountId with
            | (Except.error _, stub2) => (Reply.error "Error getting account", stub2)
            | (Except.ok account, stub2) =>
              match stub2.PutState (accountPrefix ++ accountId)
                  (some (marshalAccount
                    { account with loyalty := wrap64 (account.loyalty + points) })) with
              | (false, stub3) => (Reply.error "Error putting from account balance", stub3)
              | (true, stub3) => (Reply.ok none, stub3)
  | _ =>
    (Reply.error
      "Incorrect number of arguments. Expecting account id, number of points and a token", stub)

/-- `removeLoyalty`.  The number of points is parsed from `args[2]` here as well. -/
def removeLoyalty (stub : Stub) (args : List String) : Reply × Stub :=
  match args with
  | [accountId, _arg1, arg2] =>
    if arg2 ≠ securityToken then (Reply.error "security token does not match", stub)
    else
      match GetAllAccountIds stub with
      | (Except.error _, stub1) => (Reply.error "Error gettng account ids", stub1)
      | (Except.ok registeredIds, stub1) =>
        match ParseInt arg2 with
        | none => (Reply.error "Number of loyalty points  is not a number", stub1)
        | some points =>
          if index registeredIds accountId ≠ 1 then
            (Reply.error "Erro: account is not registered", stub1)
          else
            match GetAccount stub1 accountId with
            | (Except.error _, stub2) => (Reply.error "Error getting account", stub2)
            | (Except.ok account, stub2) =>
              if account.loyalty < points then (Reply.error "not enough loyalty points", stub2)
              else
                match stub2.PutState (accountPrefix ++ accountId)
                    (some (marshalAccount
                      { account with loyalty := wrap64 (account.loyalty - points) })) with
                | (false, stub3) => (Reply.error "Error putting from account balance", stub3)
                | (true, stub3) => (Reply.ok none, stub3)
  | _ =>
    (Reply.error
      "Incorrect number of arguments. Expecting account id, number of points and a token", stub)

/-- `Invoke`: dispatch of the mutating operations. -/
def Invoke (stub : Stub) (function : String) (args : List String) : Reply × Stub :=
  if function = "init" then Init stub "init" args
  else if function = "transfer" then transfer stub args
  else if function = "registerAccounts" then registerAccounts stub args
  else if function = "addLoyalty" then addLoyalty stub args
  else if function = "removeLoyalty" then removeLoyalty stub args
  else (Reply.error ("Received unknown function invocation: " ++ function), stub)

/-- `Query`: dispatch of the read operations.  `GetAccountDetails` reads `args[0]`
without a length check. -/
def Query (stub : Stub) (function : String) (args : List String) : Reply × Stub :=
  if function = "GetAllAccountIds" then
    match GetAllAccountIds stub with
    | (Except.error err, stub1) => (Reply.error err, stub1)
    | (Except.ok registeredIds, stub1) => (Reply.ok (some (marshalMap registeredIds)), stub1)
  else if function = "GetAccountDetails" then
    match args with
    | [] => (Reply.panicked, stub)
    | arg0 :: _ =>
      match GetAccount stub arg0 with
      | (Except.error err, stub1) => (Reply.error err, stub1)
      | (Except.ok account, stub1) => (Reply.ok (some (marshalAccount account)), stub1)
  else (Reply.error ("Received unknown function query: " ++ function), stub)

/-- A ledger whose world state is empty and whose store calls all succeed. -/
def emptyStub : Stub :=
  { state := fun _ => none, faults := [] }

/-- The ledger after `Init` and the registration of alice and bob on `emptyStub`. -/
def aliceBob : Stub :=
  (registerAccounts (Init emptyStub "init" []).2 ["[\"alice\",\"bob\"]"]).2

/-- One `Invoke` call in the history of a ledger: the operation name, the arguments, and
the fate of the store calls made during the call (see `Stub.faults`). -/
structure Call where
  function : String
  args : List String
  faults : List Bool

/-- The world state an `Invoke` call leaves behind. -/
def Call.run (state : String → Bytes) (call : Call) : String → Bytes :=
  (Invoke { state := state, faults := call.faults } call.function call.args).2.state

/-- The world state reached from deployment: `Init` runs on the empty world state, its one
store call subject to `initFaults`, and then the calls run in order. -/
def ledgerAfter (initFaults : List Bool) (calls : List Call) : String → Bytes :=
  calls.foldl Call.run (Init { state := fun _ => none, faults := initFaults } "init" []).2.state

/-- Every account record of the world state belongs to an id that the registry, which is
readable then, flags with 1. -/
def RecordsRegistered (state : String → Bytes) : Prop :=
  ∀ id, state (accountPrefix ++ id) ≠ none →
    ∃ es, unmarshalMap (state "AccountIds") = some (some es) ∧ es.lookup id = some 1

/-- Every id that the registry flags with 1 has the record the chaincode writes. -/
def RegisteredHaveRecords (state : String → Bytes) : Prop :=
  ∀ es id, unmarshalMap (state "AccountIds") = some (some es) → es.lookup id = some 1 →
    state (accountPrefix ++ id) = some (JSON.obj [])

/-- Entries in strictly ascending key order. -/
def Ascending (es : Entries) : Prop :=
  es.Pairwise (fun a b => strLt a.1 b.1 = true)

/-- Entries whose values all lie within `int64`. -/
def InRange (es : Entries) : Prop :=
  ∀ kv ∈ es, -(2 ^ 63) ≤ kv.2 ∧ kv.2 < 2 ^ 63

/-! ## Store calls on a ledger whose calls succeed -/

set_option exponentiation.threshold 2048

set_option maxRecDepth 8192

theorem getState_of_faults_nil (stub : Stub) (h : stub.faults = []) (key : String) :
    stub.GetState key = (some (stub.state key), stub) := by
  unfold Stub.GetState
  rw [h]

theorem putState_of_faults_nil (stub : Stub) (h : stub.faults = []) (key : String)
    (value : Bytes) :
    stub.PutState key value
      = (true, { state := fun k => if k = key then value else stub.state k, faults := [] }) := by
  unfold Stub.PutState
  rw [h]

theorem getState_state (stub : Stub) (key : String) :
    (stub.GetState key).2.state = stub.state := by
  unfold Stub.GetState
  split <;> rfl

theorem getAllAccountIds_state (stub : Stub) :
    (GetAllAccountIds stub).2.state = stub.state := by
  have h := getState_state stub "AccountIds"
  unfold GetAllAccountIds
  split
  · next h1 => rw [h1] at h; exact h
  · next h1 =>
    rw [h1] at h
    split <;> exact h

theorem getAllAccountIds_of_faults_nil (stub : Stub) (h : stub.faults = []) :
    (GetAllAccountIds stub).2 = stub := by
  unfold GetAllAccountIds
  rw [getState_of_faults_nil stub h]
  dsimp only
  split <;> rfl

theorem getAccount_of_faults_nil (stub : Stub) (h : stub.faults = []) (id : String) :
    (GetAccount stub id).2 = stub := by
  unfold GetAccount
  rw [getState_of_faults_nil stub h]
  dsimp only
  split <;> rfl

theorem getAllAccountIds_eq_of_faults_nil (stub : Stub) (h : stub.faults = []) :
    GetAllAccountIds stub
      = match unmarshalMap (stub.state "AccountIds") with
        | none => (Except.error "Error unmarshalling account Ids", stub)
        | some accountIds => (Except.ok accountIds, stub) := by
  unfold GetAllAccountIds
  rw [getState_of_faults_nil stub h]

/-! ## Transfer -/

/-- C1, the code at the scenario of the claim: after `Init` and the registration of alice
and bob, the transfer of 2500.0 from alice to bob with the valid token returns the
insufficient-funds error and leaves the ledger as it was, and the record of alice reads
back as the zero `Account`, whose balance is 0 and not 10000.0. -/
theorem C1_transfer_after_registration_fails :
    transfer aliceBob ["alice", "bob", "2500.0", securityToken]
        = (Reply.error "error not enough resources on from account", aliceBob)
      ∧ (GetAccount aliceBob "alice").1 = Except.ok Account.zero
      ∧ Account.zero.balance ≠ Float64.ofNat 10000 := by
  refine ⟨rfl, rfl, ?_⟩
  decide

/-- C2: on a ledger whose store calls succeed, with `from` and `to` flagged 1 in the
registry, a parsable amount and a readable record of `from` whose balance is below the
amount, `transfer` with the valid token returns the insufficient-funds error and leaves
the ledger exactly as it was. -/
theorem C2_transfer_insufficient_funds (stub : Stub) (fromId toId amountArg : String)
    (registeredIds : IntMap) (amount : Float64) (fromAccount : Account)
    (hfaults : stub.faults = [])
    (hreg : (GetAllAccountIds stub).1 = Except.ok registeredIds)
    (hfrom : index registeredIds fromId = 1) (hto : index registeredIds toId = 1)
    (hamount : ParseFloat amountArg = some amount)
    (hacc : (GetAccount stub fromId).1 = Except.ok fromAccount)
    (hlt : Float64.lt fromAccount.balance amount = true) :
    transfer stub [fromId, toId, amountArg, securityToken]
      = (Reply.error "error not enough resources on from account", stub) := by
  have h1 : GetAllAccountIds stub = (Except.ok registeredIds, stub) :=
    Prod.ext hreg (getAllAccountIds_of_faults_nil stub hfaults)
  have h2 : GetAccount stub fromId = (Except.ok fromAccount, stub) :=
    Prod.ext hacc (getAccount_of_faults_nil stub hfaults fromId)
  simp [transfer, h1, hamount, hfrom, hto, h2, hlt]

/-- C2 at the ledger with alice and bob registered and the amount 2500.0. -/
theorem C2_transfer_insufficient_funds_witness :
    transfer aliceBob ["alice", "bob", "2500.0", securityToken]
      = (Reply.error "error not enough resources on from account", aliceBob) :=
  C2_transfer_insufficient_funds aliceBob "alice" "bob" "2500.0"
    (some [("alice", 1), ("bob", 1)]) (Float64.fin false 5497558138880000 (-41)) Account.zero
    rfl rfl rfl rfl (by decide) rfl (by decide)

/-- C3: a `transfer` call with four arguments whose token argument is not the shared
secret returns the authorization error and leaves the ledger exactly as it was, whatever
the ledger and the other three arguments are. -/
theorem C3_transfer_wrong_token (stub : Stub) (fromId toId amountArg token : String)
    (htoken : token ≠ securityToken) :
    transfer stub [fromId, toId, amountArg, token]
      = (Reply.error "security token does not match", stub) := by
  simp [transfer, htoken]

/-- C3 at a call with a wrong token, an unknown sender and a non-numeric amount. -/
theorem C3_transfer_wrong_token_witness :
    transfer aliceBob ["nobody", "bob", "not a number", "guess"]
      = (Reply.error "security token does not match", aliceBob) :=
  C3_transfer_wrong_token aliceBob "nobody" "bob" "not a number" "guess" (by decide)

/-- C4, as stated, fails on a ledger whose registry cannot be read: on the empty ledger no
id is flagged, the amount parses, and `transfer` with the valid token returns the
registry-read error, not an unregistered-account error. -/
theorem C4_unreadable_registry :
    (GetAllAccountIds emptyStub).1 = Except.error "Error unmarshalling account Ids"
      ∧ ParseFloat "1" = some (Float64.ofNat 1)
      ∧ transfer emptyStub ["alice", "bob", "1", securityToken]
        = (Reply.error "Error gettng account ids", emptyStub) := by
  refine ⟨rfl, ?_, rfl⟩
  decide

/-- C4, amended: on a ledger whose store calls succeed and whose registry is readable (a
nil registry included), a `transfer` call with the valid token and a parsable amount in
which `from` or `to` is not flagged 1 returns the unregistered-account error (the one for
`from` when `from` is not flagged, else the one for `to`) and leaves the ledger exactly as
it was. -/
theorem C4_transfer_unregistered (stub : Stub) (fromId toId amountArg : String)
    (registeredIds : IntMap) (amount : Float64)
    (hfaults : stub.faults = [])
    (hreg : (GetAllAccountIds stub).1 = Except.ok registeredIds)
    (hamount : ParseFloat amountArg = some amount)
    (hunreg : index registeredIds fromId ≠ 1 ∨ index registeredIds toId ≠ 1) :
    transfer stub [fromId, toId, amountArg, securityToken]
      = (Reply.error
          (if index registeredIds fromId ≠ 1 then "Erro: from account is not registered"
           else "Error: to account is not registered"), stub) := by
  have h1 : GetAllAccountIds stub = (Except.ok registeredIds, stub) :=
    Prod.ext hreg (getAllAccountIds_of_faults_nil stub hfaults)
  by_cases hf : index registeredIds fromId = 1
  · have ht : index registeredIds toId ≠ 1 := by
      rcases hunreg with h | h
      · exact absurd hf h
      · exact h
    simp [transfer, h1, hamount, hf, ht]
  · simp [transfer, h1, hamount, hf]

/-- C4 (amended) at a transfer from alice to the unregistered carol. -/
theorem C4_transfer_unregistered_witness :
    transfer aliceBob ["alice", "carol", "1", securityToken]
      = (Reply.error "Error: to account is not registered", aliceBob) :=
  C4_transfer_unregistered aliceBob "alice" "carol" "1"
    (some [("alice", 1), ("bob", 1)]) (Float64.fin false 4503599627370496 (-52))
    rfl rfl (by decide) (Or.inr (by decide))

/-! ## Account records -/

theorem getAccount_ok_eq_zero (stub : Stub) (id : String) (account : Account)
    (h : (GetAccount stub id).1 = Except.ok account) : account = Account.zero := by
  unfold GetAccount at h
  split at h
  · simp at h
  · split at h
    · simp at h
    · next data _ acc hdec =>
      simp only [Except.ok.injEq] at h
      subst h
      unfold unmarshalAccount at hdec
      split at hdec <;> simp_all

/-- C5, the code at the scenario of the claim: `Init` and then the registration of alice
and bob succeed, the record stored for alice is the empty JSON object, `GetAccount` reads
alice and bob back as the zero `Account` (empty id, balance 0), `GetAccountDetails`
returns the empty object, and the zero `Account` is not the account with id alice,
balance 10000.0 and loyalty 0. -/
theorem C5_registered_account_reads_back_zero :
    (registerAccounts (Init emptyStub "init" []).2 ["[\"alice\",\"bob\"]"]).1 = Reply.ok none
      ∧ aliceBob.state "acct:alice" = some (JSON.obj [])
      ∧ (GetAccount aliceBob "alice").1 = Except.ok Account.zero
      ∧ (GetAccount aliceBob "bob").1 = Except.ok Account.zero
      ∧ (Query aliceBob "GetAccountDetails" ["alice"]).1 = Reply.ok (some (JSON.obj []))
      ∧ Account.zero ≠ { id := "alice", balance := Float64.ofNat 10000, loyalty := 0 } := by
  refine ⟨rfl, rfl, rfl, rfl, rfl, ?_⟩
  decide

/-! ## The key order -/

theorem lexLt_irrefl (a : List Nat) : lexLt a a = false := by
  induction a with
  | nil => rfl
  | cons x xs ih => simp [lexLt, ih]

theorem lexLt_trans : ∀ (a b c : List Nat),
    lexLt a b = true → lexLt b c = true → lexLt a c = true
  | _, [], _, h, _ => by cases ‹List Nat› <;> simp [lexLt] at h
  | _, _ :: _, [], _, h => by simp [lexLt] at h
  | [], _ :: _, _ :: _, _, _ => by simp [lexLt]
  | x :: xs, y :: ys, z :: zs, h1, h2 => by
    simp only [lexLt] at h1 h2 ⊢
    by_cases hxy : x < y
    · by_cases hyz : y < z
      · simp [show x < z by omega]
      · by_cases hyz2 : y = z
        · subst hyz2
          simp [hxy]
        · simp [hyz, hyz2] at h2
    · by_cases hxy2 : x = y
      · subst hxy2
        simp only [hxy, if_false, if_true] at h1
        by_cases hyz : x < z
        · simp [hyz]
        · by_cases hyz2 : x = z
          · subst hyz2
            simp only [hyz, if_false, if_true] at h2 ⊢
            exact lexLt_trans xs ys zs h1 h2
          · simp [hyz, hyz2] at h2
      · simp [hxy, hxy2] at h1

theorem lexLt_total : ∀ (a b : List Nat), lexLt a b = false → lexLt b a = false → a = b
  | [], [], _, _ => rfl
  | [], _ :: _, h, _ => by simp [lexLt] at h
  | _ :: _, [], _, h => by simp [lexLt] at h
  | x :: xs, y :: ys, h1, h2 => by
    simp only [lexLt] at h1 h2
    by_cases hxy : x < y
    · simp [hxy] at h1
    · by_cases hyx : y < x
      · simp [hyx] at h2
      · have hxy2 : x = y := by omega
        subst hxy2
        simp only [hxy, if_false, if_true] at h1 h2
        rw [lexLt_total xs ys h1 h2]

theorem char_toNat_injective : Function.Injective Char.toNat := by
  intro a b h
  rw [← Char.ofNat_toNat a, ← Char.ofNat_toNat b, h]

theorem strLt_irrefl (a : String) : strLt a a = false :=
  lexLt_irrefl _

theorem strLt_trans (a b c : String) (h1 : strLt a b = true) (h2 : strLt b c = true) :
    strLt a c = true :=
  lexLt_trans _ _ _ h1 h2

theorem strLt_total (a b : String) (h1 : strLt a b = false) (h2 : strLt b a = false) :
    a = b := by
  have h := lexLt_total _ _ h1 h2
  exact String.ext (List.map_injective_iff.mpr char_toNat_injective h)

theorem strLt_ne (a b : String) (h : strLt a b = true) : a ≠ b := by
  intro hab
  subst hab
  rw [strLt_irrefl] at h
  exact Bool.false_ne_true h

/-! ## Map assignment -/

theorem lookup_cons_ite (k a : String) (b : Int) (es : Entries) :
    List.lookup k ((a, b) :: es) = if k = a then some b else List.lookup k es := by
  rw [List.lookup_cons]
  by_cases h : k = a
  · simp [h]
  · have h1 : (k == a) = false := by simp [h]
    simp [h1, h]

theorem lookup_assign (es : Entries) (k : String) (v : Int) (k1 : String) :
    (assign es k v).lookup k1 = if k1 = k then some v else es.lookup k1 := by
  induction es with
  | nil =>
    unfold assign
    rw [lookup_cons_ite]
  | cons e rest ih =>
    obtain ⟨k2, v2⟩ := e
    unfold assign
    by_cases hlt : strLt k k2 = true
    · simp only [hlt, if_true]
      rw [lookup_cons_ite]
    · by_cases heq : k = k2
      · subst heq
        rw [if_neg hlt, if_pos rfl, lookup_cons_ite, lookup_cons_ite]
        by_cases h : k1 = k <;> simp [h]
      · rw [if_neg hlt, if_neg heq, lookup_cons_ite, lookup_cons_ite, ih]
        by_cases h : k1 = k
        · subst h
          simp [heq]
        · simp [h]

theorem mem_assign (es : Entries) (k : String) (v : Int) (kv : String × Int)
    (h : kv ∈ assign es k v) : kv = (k, v) ∨ kv ∈ es := by
  induction es with
  | nil => simpa [assign] using h
  | cons e rest ih =>
    obtain ⟨k2, v2⟩ := e
    unfold assign at h
    split_ifs at h with h1 h2
    · simpa using h
    · simp only [List.mem_cons] at h ⊢
      rcases h with h | h
      · exact Or.inl h
      · exact Or.inr (Or.inr h)
    · simp only [List.mem_cons] at h ⊢
      rcases h with h | h
      · exact Or.inr (Or.inl h)
      · rcases ih h with h3 | h3
        · exact Or.inl h3
        · exact Or.inr (Or.inr h3)

theorem assign_ascending (es : Entries) (k : String) (v : Int) (h : Ascending es) :
    Ascending (assign es k v) := by
  induction es with
  | nil => simp [assign, Ascending]
  | cons e rest ih =>
    obtain ⟨k2, v2⟩ := e
    unfold Ascending at h ih ⊢
    rw [List.pairwise_cons] at h
    unfold assign
    split_ifs with h1 h2
    · rw [List.pairwise_cons]
      refine ⟨?_, List.pairwise_cons.mpr h⟩
      intro kv hkv
      rcases List.mem_cons.mp hkv with h3 | h3
      · rw [h3]
        exact h1
      · exact strLt_trans _ _ _ h1 (h.1 kv h3)
    · rw [List.pairwise_cons]
      subst h2
      exact ⟨h.1, h.2⟩
    · rw [List.pairwise_cons]
      refine ⟨?_, ih h.2⟩
      intro kv hkv
      rcases mem_assign rest k v kv hkv with h3 | h3
      · rw [h3]
        by_contra h4
        exact h2 (strLt_total k k2 (by simpa using h1) (by simpa using h4))
      · exact h.1 kv h3

theorem assign_inRange (es : Entries) (k : String) (v : Int) (h : InRange es)
    (hv : -(2 ^ 63) ≤ v ∧ v < 2 ^ 63) : InRange (assign es k v) := by
  intro kv hkv
  rcases mem_assign es k v kv hkv with h1 | h1
  · rw [h1]
    exact hv
  · exact h kv h1

theorem lookup_eq_none_of_above (es : Entries) (k : String)
    (h : ∀ kv ∈ es, strLt k kv.1 = true) : es.lookup k = none := by
  induction es with
  | nil => rfl
  | cons e rest ih =>
    obtain ⟨k2, v2⟩ := e
    have h1 : k ≠ k2 := strLt_ne k k2 (h (k2, v2) (List.mem_cons_self _ _))
    rw [lookup_cons_ite, if_neg h1]
    exact ih (fun kv hkv => h kv (List.mem_cons_of_mem _ hkv))

theorem assign_same (es : Entries) (k : String) (v : Int) (h : Ascending es)
    (hk : es.lookup k = some v) : assign es k v = es := by
  induction es with
  | nil => simp at hk
  | cons e rest ih =>
    obtain ⟨k2, v2⟩ := e
    unfold Ascending at h ih
    rw [List.pairwise_cons] at h
    unfold assign
    by_cases h1 : strLt k k2 = true
    · exfalso
      have h3 : ((k2, v2) :: rest).lookup k = none := by
        apply lookup_eq_none_of_above
        intro kv hkv
        rcases List.mem_cons.mp hkv with h4 | h4
        · rw [h4]
          exact h1
        · exact strLt_trans _ _ _ h1 (h.1 kv h4)
      rw [h3] at hk
      exact Option.noConfusion hk
    · by_cases h2 : k = k2
      · subst h2
        simp only [List.lookup_cons_self, Option.some.injEq] at hk
        subst hk
        simp [h1]
      · rw [lookup_cons_ite, if_neg h2] at hk
        rw [if_neg h1, if_neg h2, ih h.2 hk]

theorem assign_append (acc : Entries) (k : String) (v : Int)
    (h : ∀ kv ∈ acc, strLt kv.1 k = true) : assign acc k v = acc ++ [(k, v)] := by
  induction acc with
  | nil => rfl
  | cons e rest ih =>
    obtain ⟨k2, v2⟩ := e
    have h1 : strLt k2 k = true := h (k2, v2) (List.mem_cons_self _ _)
    have h2 : strLt k k2 = false := by
      by_contra h3
      have h4 := strLt_trans _ _ _ h1 (by simpa using h3)
      rw [strLt_irrefl] at h4
      exact Bool.false_ne_true h4
    have h5 : k ≠ k2 := fun h6 => strLt_ne k2 k h1 h6.symm
    unfold assign
    simp only [h2, h5, if_false, Bool.false_eq_true, List.cons_append]
    rw [ih (fun kv hkv => h kv (List.mem_cons_of_mem _ hkv))]

/-! ## The registry and its JSON form -/

theorem decodeInt_range (v : JSON) (i : Int) (h : decodeInt v = some i) :
    -(2 ^ 63) ≤ i ∧ i < 2 ^ 63 := by
  unfold decodeInt at h
  split at h
  · split_ifs at h with h1
    simp only [Option.some.injEq] at h
    subst h
    exact h1
  · simp only [Option.some.injEq] at h
    subst h
    decide
  · exact Option.noConfusion h

theorem decodeMembers_sound (ms : List (String × JSON)) :
    ∀ (acc es : Entries), decodeMembers ms acc = some es → Ascending acc → InRange acc →
      Ascending es ∧ InRange es := by
  induction ms with
  | nil =>
    intro acc es h ha hr
    simp only [decodeMembers, Option.some.injEq] at h
    subst h
    exact ⟨ha, hr⟩
  | cons m rest ih =>
    intro acc es h ha hr
    obtain ⟨k, v⟩ := m
    unfold decodeMembers at h
    split at h
    · exact Option.noConfusion h
    · next i hi =>
      exact ih _ es h (assign_ascending acc k i ha)
        (assign_inRange acc k i hr (decodeInt_range v i hi))

theorem decodeMembers_encode (es : Entries) :
    ∀ (acc : Entries), Ascending (acc ++ es) → InRange es →
      decodeMembers (es.map fun kv => (kv.1, JSON.int kv.2)) acc = some (acc ++ es) := by
  induction es with
  | nil =>
    intro acc _ _
    simp [decodeMembers]
  | cons e rest ih =>
    intro acc ha hr
    obtain ⟨k, v⟩ := e
    have hv : -(2 ^ 63) ≤ v ∧ v < 2 ^ 63 := hr (k, v) (List.mem_cons_self _ _)
    have hdec : decodeInt (JSON.int v) = some v := by
      show (if -(2 ^ 63) ≤ v ∧ v < 2 ^ 63 then some v else none) = some v
      rw [if_pos hv]
    have habove : ∀ kv ∈ acc, strLt kv.1 k = true := by
      intro kv hkv
      unfold Ascending at ha
      rw [List.pairwise_append] at ha
      exact ha.2.2 kv hkv (k, v) (List.mem_cons_self _ _)
    simp only [List.map_cons, decodeMembers, hdec]
    rw [assign_append acc k v habove, ih (acc ++ [(k, v)])]
    · simp
    · simpa using ha
    · exact fun kv hkv => hr kv (List.mem_cons_of_mem _ hkv)

theorem unmarshalMap_marshalMap (es : Entries) (ha : Ascending es) (hr : InRange es) :
    unmarshalMap (some (marshalMap (some es))) = some (some es) := by
  have h := decodeMembers_encode es [] (by simpa using ha) hr
  simp only [List.nil_append] at h
  simp only [unmarshalMap, marshalMap, h]

theorem unmarshalMap_sound (data : Bytes) (es : Entries)
    (h : unmarshalMap data = some (some es)) : Ascending es ∧ InRange es := by
  unfold unmarshalMap at h
  split at h
  · simp at h
  · next ms =>
    split at h
    · next es1 hes =>
      simp only [Option.some.injEq] at h
      subst h
      exact decodeMembers_sound ms [] es1 hes List.Pairwise.nil (fun _ hkv => by simp at hkv)
    · exact Option.noConfusion h
  · exact Option.noConfusion h

theorem startRegistry_sound (stub : Stub) :
    Ascending (startRegistry (GetAllAccountIds stub).1)
      ∧ InRange (startRegistry (GetAllAccountIds stub).1) := by
  have hnil : Ascending [] ∧ InRange [] :=
    ⟨List.Pairwise.nil, fun _ hkv => by simp at hkv⟩
  unfold GetAllAccountIds
  split
  · exact hnil
  · next data _ _ =>
    split
    · exact hnil
    · next m hm =>
      cases m with
      | none => exact hnil
      | some es => exact unmarshalMap_sound data es hm

/-! ## The loops of `registerAccounts` -/

theorem markIds_fst_sound (ids : List String) :
    ∀ (reg : Entries) (new : List String), Ascending reg → InRange reg →
      Ascending (markIds ids reg new).1 ∧ InRange (markIds ids reg new).1 := by
  induction ids with
  | nil =>
    intro reg new ha hr
    exact ⟨ha, hr⟩
  | cons id rest ih =>
    intro reg new ha hr
    unfold markIds
    exact ih _ _ (assign_ascending reg id 1 ha) (assign_inRange reg id 1 hr (by decide))

theorem markIds_fst_lookup (ids : List String) :
    ∀ (reg : Entries) (new : List String) (k : String),
      (markIds ids reg new).1.lookup k = if k ∈ ids then some 1 else reg.lookup k := by
  induction ids with
  | nil =>
    intro reg new k
    simp [markIds]
  | cons id rest ih =>
    intro reg new k
    unfold markIds
    rw [ih, lookup_assign]
    by_cases h1 : k ∈ rest
    · simp [h1]
    · by_cases h2 : k = id <;> simp [h1, h2]

theorem markIds_snd_not_mem (ids : List String) :
    ∀ (reg : Entries) (new : List String) (id : String), id ∉ new →
      index (some reg) id = 1 → id ∉ (markIds ids reg new).2 := by
  induction ids with
  | nil =>
    intro reg new id hnew _
    exact hnew
  | cons a rest ih =>
    intro reg new id hnew hflag
    unfold markIds
    apply ih
    · split_ifs with h1
      · intro hmem
        rcases List.mem_append.mp hmem with h2 | h2
        · exact hnew h2
        · have h3 : id = a := by simpa using h2
          subst h3
          exact h1 hflag
      · exact hnew
    · unfold index at hflag ⊢
      simp only [lookup_assign] at hflag ⊢
      split_ifs with h1
      · rfl
      · exact hflag

theorem markIds_of_flagged (ids : List String) :
    ∀ (reg : Entries) (new : List String), Ascending reg →
      (∀ id ∈ ids, reg.lookup id = some 1) → markIds ids reg new = (reg, new) := by
  induction ids with
  | nil =>
    intro reg new _ _
    rfl
  | cons a rest ih =>
    intro reg new ha hall
    have h1 : reg.lookup a = some 1 := hall a (List.mem_cons_self _ _)
    have h2 : index (some reg) a = 1 := by
      unfold index
      simp [h1]
    unfold markIds
    rw [assign_same reg a 1 ha h1]
    simp only [h2, ne_eq, not_true_eq_false, if_false]
    exact ih reg new ha (fun id hid => hall id (List.mem_cons_of_mem _ hid))

theorem accountKey_ne_registryKey (id : String) : accountPrefix ++ id ≠ "AccountIds" := by
  intro h
  have h1 := congrArg String.data h
  simp [accountPrefix] at h1

theorem accountKey_injective (a b : String) (h : accountPrefix ++ a = accountPrefix ++ b) :
    a = b := by
  have h1 := congrArg String.data h
  simp only [String.data_append] at h1
  exact String.ext (List.append_cancel_left h1)

theorem putState_state_other (stub : Stub) (k : String) (v : Bytes) (key : String)
    (h : key ≠ k) : (stub.PutState k v).2.state key = stub.state key := by
  unfold Stub.PutState
  split <;> simp [h]

theorem putState_false_state (stub stub1 : Stub) (k : String) (v : Bytes)
    (h : stub.PutState k v = (false, stub1)) : stub1.state = stub.state := by
  unfold Stub.PutState at h
  split at h <;> simp at h
  rw [← h]

theorem putAccounts_state_other (ids : List String) :
    ∀ (stub : Stub) (key : String), (∀ id ∈ ids, key ≠ accountPrefix ++ id) →
      (putAccounts ids stub).2.state key = stub.state key := by
  induction ids with
  | nil =>
    intro stub key _
    rfl
  | cons a rest ih =>
    intro stub key h
    have h1 := putState_state_other stub (accountPrefix ++ a)
      (some (marshalAccount { id := a, balance := Float64.ofNat 10000, loyalty := 0 })) key
      (h a (List.mem_cons_self _ _))
    unfold putAccounts
    split
    · next stub1 heq =>
      rw [heq] at h1
      exact h1
    · next stub1 heq =>
      rw [heq] at h1
      rw [ih stub1 key (fun id hid => h id (List.mem_cons_of_mem _ hid))]
      exact h1

theorem putAccounts_of_faults_nil (ids : List String) :
    ∀ (stub : Stub), stub.faults = [] →
      (putAccounts ids stub).1 = Reply.ok none ∧ (putAccounts ids stub).2.faults = [] := by
  induction ids with
  | nil =>
    intro stub h
    exact ⟨rfl, h⟩
  | cons a rest ih =>
    intro stub h
    unfold putAccounts
    rw [putState_of_faults_nil stub h]
    exact ih _ rfl

/-! ## Registration -/

theorem registerAccounts_of_faults_nil (stub : Stub) (arg : String) (ids : List String)
    (hfaults : stub.faults = []) (hids : unmarshalStrings (jsonScan arg) = some ids) :
    registerAccounts stub [arg]
      = putAccounts (markIds ids (startRegistry (GetAllAccountIds stub).1) []).2
          { state := fun k =>
              if k = "AccountIds" then
                some (marshalMap (some (markIds ids (startRegistry (GetAllAccountIds stub).1) []).1))
              else stub.state k,
            faults := [] } := by
  simp only [registerAccounts, hids, getAllAccountIds_of_faults_nil stub hfaults,
    putState_of_faults_nil stub hfaults]

theorem registerAccounts_result (stub : Stub) (arg : String) (ids : List String)
    (hfaults : stub.faults = []) (hids : unmarshalStrings (jsonScan arg) = some ids) :
    (registerAccounts stub [arg]).1 = Reply.ok none
      ∧ (registerAccounts stub [arg]).2.faults = []
      ∧ GetAllAccountIds (registerAccounts stub [arg]).2
          = (Except.ok (some (markIds ids (startRegistry (GetAllAccountIds stub).1) []).1),
              (registerAccounts stub [arg]).2) := by
  have hput := putAccounts_of_faults_nil
    (markIds ids (startRegistry (GetAllAccountIds stub).1) []).2
    { state := fun k =>
        if k = "AccountIds" then
          some (marshalMap (some (markIds ids (startRegistry (GetAllAccountIds stub).1) []).1))
        else stub.state k,
      faults := [] } rfl
  have hstate := putAccounts_state_other
    (markIds ids (startRegistry (GetAllAccountIds stub).1) []).2
    { state := fun k =>
        if k = "AccountIds" then
          some (marshalMap (some (markIds ids (startRegistry (GetAllAccountIds stub).1) []).1))
        else stub.state k,
      faults := [] } "AccountIds" (fun id _ => (accountKey_ne_registryKey id).symm)
  have hsound := markIds_fst_sound ids (startRegistry (GetAllAccountIds stub).1) []
    (startRegistry_sound stub).1 (startRegistry_sound stub).2
  rw [← registerAccounts_of_faults_nil stub arg ids hfaults hids] at hput hstate
  refine ⟨hput.1, hput.2, ?_⟩
  rw [getAllAccountIds_eq_of_faults_nil _ hput.2, hstate]
  simp only [if_true]
  rw [unmarshalMap_marshalMap _ hsound.1 hsound.2]

/-- C6: (1) whatever the fate of the store calls, when the registry is readable and flags
an id with 1, `registerAccounts` with any id list leaves the bytes stored under the
account key of that id as they were, so its record is not reset; (2) on a ledger whose
store calls succeed, repeating a `registerAccounts` call with the same argument succeeds
and leaves the ledger exactly as the first call left it. -/
theorem C6_registerAccounts_idempotent :
    (∀ (stub : Stub) (arg id : String) (registeredIds : IntMap),
        (GetAllAccountIds stub).1 = Except.ok registeredIds →
        index registeredIds id = 1 →
        (registerAccounts stub [arg]).2.state (accountPrefix ++ id)
          = stub.state (accountPrefix ++ id))
      ∧ (∀ (stub : Stub) (arg : String) (ids : List String),
        stub.faults = [] →
        unmarshalStrings (jsonScan arg) = some ids →
        registerAccounts (registerAccounts stub [arg]).2 [arg]
          = (Reply.ok none, (registerAccounts stub [arg]).2)) := by
  constructor
  · intro stub arg id registeredIds hreg hflag
    have hstart : index (some (startRegistry (GetAllAccountIds stub).1)) id = 1 := by
      rw [hreg]
      cases registeredIds with
      | none => simp [index] at hflag
      | some es => exact hflag
    have hkey : accountPrefix ++ id ≠ "AccountIds" := accountKey_ne_registryKey id
    simp only [registerAccounts]
    split
    · rfl
    · next ids _ =>
      · have hnot := markIds_snd_not_mem ids (startRegistry (GetAllAccountIds stub).1) [] id
          (List.not_mem_nil id) hstart
        have hput := putState_state_other (GetAllAccountIds stub).2 "AccountIds"
          (some (marshalMap (some (markIds ids (startRegistry (GetAllAccountIds stub).1) []).1)))
          (accountPrefix ++ id) hkey
        rw [getAllAccountIds_state] at hput
        split
        · next stub2 heq =>
          rw [heq] at hput
          exact hput
        · next stub2 heq =>
          rw [heq] at hput
          rw [putAccounts_state_other _ stub2 (accountPrefix ++ id)]
          · exact hput
          · intro id1 hid1 h
            have h2 := accountKey_injective id id1 h
            subst h2
            exact hnot hid1
  · intro stub arg ids hfaults hids
    obtain ⟨_, hf1, hget⟩ := registerAccounts_result stub arg ids hfaults hids
    have hsound := markIds_fst_sound ids (startRegistry (GetAllAccountIds stub).1) []
      (startRegistry_sound stub).1 (startRegistry_sound stub).2
    have hstate : (registerAccounts stub [arg]).2.state "AccountIds"
        = some (marshalMap (some (markIds ids (startRegistry (GetAllAccountIds stub).1) []).1)) := by
      have h := putAccounts_state_other
        (markIds ids (startRegistry (GetAllAccountIds stub).1) []).2
        { state := fun k =>
            if k = "AccountIds" then
              some (marshalMap (some (markIds ids (startRegistry (GetAllAccountIds stub).1) []).1))
            else stub.state k,
          faults := [] } "AccountIds" (fun id _ => (accountKey_ne_registryKey id).symm)
      rw [← registerAccounts_of_faults_nil stub arg ids hfaults hids] at h
      simpa using h
    rw [registerAccounts_of_faults_nil _ arg ids hf1 hids, hget]
    rw [show startRegistry (Except.ok (some (markIds ids
          (startRegistry (GetAllAccountIds stub).1) []).1))
        = (markIds ids (startRegistry (GetAllAccountIds stub).1) []).1 from rfl]
    rw [markIds_of_flagged ids _ [] hsound.1]
    · simp only [putAccounts]
      have heta : (registerAccounts stub [arg]).2
          = { state := (registerAccounts stub [arg]).2.state,
              faults := (registerAccounts stub [arg]).2.faults } := rfl
      rw [Prod.mk.injEq]
      refine ⟨rfl, ?_⟩
      rw [heta, Stub.mk.injEq]
      refine ⟨?_, hf1.symm⟩
      funext k
      by_cases hk : k = "AccountIds"
      · subst hk
        simp only [if_true]
        exact hstate.symm
      · simp only [hk, if_false]
    · intro id hid
      rw [markIds_fst_lookup]
      simp [hid]

/-- C6 at the re-registration of alice, and at registering `a` twice on the empty
ledger. -/
theorem C6_registerAccounts_idempotent_witness :
    (registerAccounts aliceBob ["[\"alice\"]"]).2.state (accountPrefix ++ "alice")
        = aliceBob.state (accountPrefix ++ "alice")
      ∧ registerAccounts (registerAccounts emptyStub ["[\"a\"]"]).2 ["[\"a\"]"]
        = (Reply.ok none, (registerAccounts emptyStub ["[\"a\"]"]).2) :=
  ⟨C6_registerAccounts_idempotent.1 aliceBob "[\"alice\"]" "alice"
      (some [("alice", 1), ("bob", 1)]) rfl rfl,
    C6_registerAccounts_idempotent.2 emptyStub "[\"a\"]" ["a"] rfl rfl⟩

/-- C7: on a ledger whose store calls succeed and whose registry reads as `R`,
`registerAccounts` with an argument that decodes to the id list `ids` succeeds, and
afterwards `GetAllAccountIds` reads a registry, which the query returns in its JSON form,
that maps every id of the list to 1 and every other id to what `R` maps it to, each key
occurring once. -/
theorem C7_registry_after_registration (stub : Stub) (arg : String) (ids : List String)
    (R : IntMap)
    (hfaults : stub.faults = [])
    (hreg : (GetAllAccountIds stub).1 = Except.ok R)
    (hids : unmarshalStrings (jsonScan arg) = some ids) :
    (registerAccounts stub [arg]).1 = Reply.ok none
      ∧ ∃ R1 : Entries,
        (GetAllAccountIds (registerAccounts stub [arg]).2).1 = Except.ok (some R1)
          ∧ (Query (registerAccounts stub [arg]).2 "GetAllAccountIds" []).1
              = Reply.ok (some (marshalMap (some R1)))
          ∧ (∀ k, R1.lookup k = if k ∈ ids then some 1 else (R.getD []).lookup k)
          ∧ (R1.map Prod.fst).Nodup := by
  obtain ⟨hok, _, hget⟩ := registerAccounts_result stub arg ids hfaults hids
  have hsound := markIds_fst_sound ids (startRegistry (GetAllAccountIds stub).1) []
    (startRegistry_sound stub).1 (startRegistry_sound stub).2
  have hstart : startRegistry (GetAllAccountIds stub).1 = R.getD [] := by
    rw [hreg]
    cases R <;> rfl
  refine ⟨hok, (markIds ids (startRegistry (GetAllAccountIds stub).1) []).1, ?_, ?_, ?_, ?_⟩
  · rw [hget]
  · unfold Query
    rw [if_pos rfl, hget]
  · intro k
    rw [markIds_fst_lookup, hstart]
  · unfold List.Nodup
    rw [List.pairwise_map]
    exact List.Pairwise.imp (fun h => strLt_ne _ _ h) hsound.1

/-- C7 at the registration of carol, alice and carol again on the ledger with alice and
bob registered. -/
theorem C7_registry_after_registration_witness :
    (registerAccounts aliceBob ["[\"carol\",\"alice\",\"carol\"]"]).1 = Reply.ok none
      ∧ ∃ R1 : Entries,
        (GetAllAccountIds
            (registerAccounts aliceBob ["[\"carol\",\"alice\",\"carol\"]"]).2).1
            = Except.ok (some R1)
          ∧ (Query (registerAccounts aliceBob ["[\"carol\",\"alice\",\"carol\"]"]).2
              "GetAllAccountIds" []).1 = Reply.ok (some (marshalMap (some R1)))
          ∧ (∀ k, R1.lookup k = if k ∈ ["carol", "alice", "carol"] then some 1
              else ((some [("alice", 1), ("bob", 1)] : IntMap).getD []).lookup k)
          ∧ (R1.map Prod.fst).Nodup :=
  C7_registry_after_registration aliceBob "[\"carol\",\"alice\",\"carol\"]"
    ["carol", "alice", "carol"] (some [("alice", 1), ("bob", 1)]) rfl rfl rfl

/-! ## Loyalty points -/

/-- C8, the code at the scenario of the claim: after `Init` and the registration of alice
and bob, `addLoyalty` for alice with 100 points and the valid token returns the
not-a-number error and leaves the ledger as it was: the points are parsed from the token
argument, which `ParseInt` rejects, while the points argument itself is a number. -/
theorem C8_addLoyalty_after_registration_fails :
    addLoyalty aliceBob ["alice", "100", securityToken]
        = (Reply.error "Number of loyalty points  is not a number", aliceBob)
      ∧ ParseInt "100" = some 100
      ∧ ParseInt securityToken = none := by
  refine ⟨rfl, ?_, ?_⟩ <;> decide

/-- C9, the code at an input of the claim: after `Init` and the registration of alice and
bob the loyalty of alice reads 0, and `removeLoyalty` for alice with 30 points and the
valid token returns the not-a-number error, not the insufficient-loyalty error, leaving
the ledger as it was. -/
theorem C9_removeLoyalty_after_registration_fails :
    removeLoyalty aliceBob ["alice", "30", securityToken]
        = (Reply.error "Number of loyalty points  is not a number", aliceBob)
      ∧ (GetAccount aliceBob "alice").1 = Except.ok Account.zero
      ∧ ParseInt "30" = some 30
      ∧ Account.zero.loyalty < 30 := by
  refine ⟨rfl, rfl, ?_, ?_⟩ <;> decide

/-! ## The security token -/

/-- C10, as stated, fails: `registerAccounts` and `init` are invoked here with arguments
that do not contain the shared secret; both return success, the first creates the record
of account `a` and the second overwrites the registry. -/
theorem C10_untokened_calls_change_store :
    securityToken ∉ ["[\"a\"]"]
      ∧ (Invoke emptyStub "registerAccounts" ["[\"a\"]"]).1 = Reply.ok none
      ∧ emptyStub.state "acct:a" = none
      ∧ (Invoke emptyStub "registerAccounts" ["[\"a\"]"]).2.state "acct:a" = some (JSON.obj [])
      ∧ (Invoke aliceBob "init" []).1 = Reply.ok none
      ∧ aliceBob.state "AccountIds" = some (JSON.obj [("alice", JSON.int 1), ("bob", JSON.int 1)])
      ∧ (Invoke aliceBob "init" []).2.state "AccountIds" = some JSON.null := by
  refine ⟨?_, rfl, rfl, rfl, rfl, rfl, rfl⟩
  decide

/-- C10, amended: an `Invoke` call of `transfer`, `addLoyalty` or `removeLoyalty` whose
last argument is not the shared secret (in particular one with no argument equal to it)
returns an error and leaves the ledger exactly as it was. -/
theorem C10_token_guarded_operations (stub : Stub) (function : String) (args : List String)
    (hop : function = "transfer" ∨ function = "addLoyalty" ∨ function = "removeLoyalty")
    (htoken : args.getLast? ≠ some securityToken) :
    ∃ msg, Invoke stub function args = (Reply.error msg, stub) := by
  rcases hop with h | h | h
  · subst h
    have hd : Invoke stub "transfer" args = transfer stub args := by
      unfold Invoke
      rw [if_neg (by decide), if_pos rfl]
    rw [hd]
    unfold transfer
    split
    · next a b c t =>
      have ht : t ≠ securityToken := by
        intro h
        apply htoken
        simp [h]
      exact ⟨"security token does not match", by simp [ht]⟩
    · exact ⟨_, rfl⟩
  · subst h
    have hd : Invoke stub "addLoyalty" args = addLoyalty stub args := by
      unfold Invoke
      rw [if_neg (by decide), if_neg (by decide), if_neg (by decide), if_pos rfl]
    rw [hd]
    unfold addLoyalty
    split
    · next a b t =>
      have ht : t ≠ securityToken := by
        intro h
        apply htoken
        simp [h]
      exact ⟨"security token does not match", by simp [ht]⟩
    · exact ⟨_, rfl⟩
  · subst h
    have hd : Invoke stub "removeLoyalty" args = removeLoyalty stub args := by
      unfold Invoke
      rw [if_neg (by decide), if_neg (by decide), if_neg (by decide), if_neg (by decide),
        if_pos rfl]
    rw [hd]
    unfold removeLoyalty
    split
    · next a b t =>
      have ht : t ≠ securityToken := by
        intro h
        apply htoken
        simp [h]
      exact ⟨"security token does not match", by simp [ht]⟩
    · exact ⟨_, rfl⟩

/-- C10 (amended) at a transfer call with a wrong token. -/
theorem C10_token_guarded_operations_witness :
    ∃ msg, Invoke aliceBob "transfer" ["alice", "bob", "0", "open sesame"]
      = (Reply.error msg, aliceBob) :=
  C10_token_guarded_operations aliceBob "transfer" ["alice", "bob", "0", "open sesame"]
    (Or.inl rfl) (by decide)

/-! ## The parse of the token argument -/

theorem parseInt_securityToken : ParseInt securityToken = none := by
  decide

theorem addLoyalty_fails (stub : Stub) (args : List String) :
    (∃ msg, (addLoyalty stub args).1 = Reply.error msg)
      ∧ (addLoyalty stub args).2.state = stub.state := by
  unfold addLoyalty
  split
  · next accountId arg1 arg2 =>
    by_cases ht : arg2 = securityToken
    · subst ht
      have hs := getAllAccountIds_state stub
      rw [if_neg (by simp)]
      cases hg : GetAllAccountIds stub with
      | mk r stub1 =>
        rw [hg] at hs
        cases r with
        | error e => exact ⟨⟨_, rfl⟩, hs⟩
        | ok registeredIds =>
          simp only [parseInt_securityToken]
          exact ⟨⟨_, rfl⟩, hs⟩
    · rw [if_pos ht]
      exact ⟨⟨_, rfl⟩, rfl⟩
  · exact ⟨⟨_, rfl⟩, rfl⟩

theorem removeLoyalty_fails (stub : Stub) (args : List String) :
    (∃ msg, (removeLoyalty stub args).1 = Reply.error msg)
      ∧ (removeLoyalty stub args).2.state = stub.state := by
  unfold removeLoyalty
  split
  · next accountId arg1 arg2 =>
    by_cases ht : arg2 = securityToken
    · subst ht
      have hs := getAllAccountIds_state stub
      rw [if_neg (by simp)]
      cases hg : GetAllAccountIds stub with
      | mk r stub1 =>
        rw [hg] at hs
        cases r with
        | error e => exact ⟨⟨_, rfl⟩, hs⟩
        | ok registeredIds =>
          simp only [parseInt_securityToken]
          exact ⟨⟨_, rfl⟩, hs⟩
    · rw [if_pos ht]
      exact ⟨⟨_, rfl⟩, rfl⟩
  · exact ⟨⟨_, rfl⟩, rfl⟩

/-! ## Transfers that succeed -/

theorem getAccount_state (stub : Stub) (id : String) :
    (GetAccount stub id).2.state = stub.state := by
  have h := getState_state stub (accountPrefix ++ id)
  unfold GetAccount
  split
  · next h1 => rw [h1] at h; exact h
  · next h1 =>
    rw [h1] at h
    split <;> exact h

theorem putState_true_state (stub stub1 : Stub) (k : String) (v : Bytes)
    (h : stub.PutState k v = (true, stub1)) :
    stub1.state = fun key => if key = k then v else stub.state key := by
  unfold Stub.PutState at h
  split at h <;> simp at h <;> rw [← h]

theorem getAccount_of_empty_record (state : String → Bytes) (id : String)
    (h : state (accountPrefix ++ id) = some (JSON.obj [])) :
    GetAccount { state := state, faults := [] } id
      = (Except.ok Account.zero, { state := state, faults := [] }) := by
  unfold GetAccount
  rw [getState_of_faults_nil _ rfl]
  simp only [h, unmarshalAccount]

theorem transfer_ok_state (stub : Stub) (fromId toId amountArg token : String)
    (payload : Bytes)
    (h : (transfer stub [fromId, toId, amountArg, token]).1 = Reply.ok payload) :
    (transfer stub [fromId, toId, amountArg, token]).2.state
      = fun key =>
          if key = accountPrefix ++ toId then some (JSON.obj [])
          else if key = accountPrefix ++ fromId then some (JSON.obj [])
          else stub.state key := by
  generalize hres : transfer stub [fromId, toId, amountArg, token] = res at h
  simp only [transfer] at hres
  split at hres
  · rw [← hres] at h; simp at h
  · split at hres
    · rw [← hres] at h; simp at h
    · next registeredIds stub1 hg =>
      have hs1 : stub1.state = stub.state := by
        have := getAllAccountIds_state stub
        rw [hg] at this
        exact this
      split at hres
      · rw [← hres] at h; simp at h
      · split at hres
        · rw [← hres] at h; simp at h
        · split at hres
          · rw [← hres] at h; simp at h
          · split at hres
            · rw [← hres] at h; simp at h
            · next fromAccount stub2 hg2 =>
              have hs2 : stub2.state = stub1.state := by
                have := getAccount_state stub1 fromId
                rw [hg2] at this
                exact this
              split at hres
              · rw [← hres] at h; simp at h
              · split at hres
                · rw [← hres] at h; simp at h
                · next toAccount stub3 hg3 =>
                  have hs3 : stub3.state = stub2.state := by
                    have := getAccount_state stub2 toId
                    rw [hg3] at this
                    exact this
                  split at hres
                  · rw [← hres] at h; simp at h
                  · next stub4 hp4 =>
                    have hs4 := putState_true_state _ _ _ _ hp4
                    split at hres
                    · rw [← hres] at h; simp at h
                    · next stub5 hp5 =>
                      have hs5 := putState_true_state _ _ _ _ hp5
                      rw [← hres]
                      simp only [hs5, hs4, hs3, hs2, hs1, marshalAccount]

/-! ## What one call changes -/

theorem index_eq_one (reg : IntMap) (id : String) (h : index reg id = 1) :
    ∃ es, reg = some es ∧ es.lookup id = some 1 := by
  cases reg with
  | none => simp [index] at h
  | some es =>
    refine ⟨es, rfl, ?_⟩
    unfold index at h
    cases hl : List.lookup id es with
    | none => simp [hl] at h
    | some v =>
      simp only [hl, Option.getD_some] at h
      rw [h]

theorem getState_data (stub stub1 : Stub) (key : String) (data : Bytes)
    (h : stub.GetState key = (some data, stub1)) : data = stub.state key := by
  unfold Stub.GetState at h
  split at h <;> simp at h <;> exact h.1.symm

theorem unmarshalMap_of_getAllAccountIds (stub : Stub) (reg : IntMap)
    (h : (GetAllAccountIds stub).1 = Except.ok reg) :
    unmarshalMap (stub.state "AccountIds") = some reg := by
  unfold GetAllAccountIds at h
  split at h
  · simp at h
  · next data stub1 hget =>
    rw [← getState_data stub stub1 "AccountIds" data hget]
    split at h
    · simp at h
    · next m hm =>
      simp only [Except.ok.injEq] at h
      rw [hm, h]

theorem startRegistry_of_readable (state : String → Bytes) (es : Entries)
    (h : unmarshalMap (state "AccountIds") = some (some es)) :
    startRegistry (GetAllAccountIds { state := state, faults := [] }).1 = es := by
  rw [getAllAccountIds_eq_of_faults_nil _ rfl]
  simp only [h, startRegistry]

theorem readable_of_startRegistry (stub : Stub) (id : String) (v : Int)
    (h : (startRegistry (GetAllAccountIds stub).1).lookup id = some v) :
    unmarshalMap (stub.state "AccountIds")
      = some (some (startRegistry (GetAllAccountIds stub).1)) := by
  cases hg : (GetAllAccountIds stub).1 with
  | error e =>
    rw [hg] at h
    simp [startRegistry] at h
  | ok reg =>
    cases reg with
    | none =>
      rw [hg] at h
      simp [startRegistry] at h
    | some es => exact unmarshalMap_of_getAllAccountIds stub (some es) hg

theorem init_state_key (stub : Stub) (function : String) (args : List String)
    (key : String) :
    (Init stub function args).2.state key = stub.state key
      ∨ (key = "AccountIds" ∧ (Init stub function args).2.state key = some JSON.null) := by
  unfold Init Stub.PutState
  split
  · exact Or.inl rfl
  · by_cases hk : key = "AccountIds"
    · exact Or.inr ⟨hk, by simp [hk, marshalMap]⟩
    · exact Or.inl (by simp [hk])
  · by_cases hk : key = "AccountIds"
    · exact Or.inr ⟨hk, by simp [hk, marshalMap]⟩
    · exact Or.inl (by simp [hk])

theorem markIds_snd_subset (ids : List String) :
    ∀ (reg : Entries) (new : List String) (x : String),
      x ∈ (markIds ids reg new).2 → x ∈ new ∨ x ∈ ids := by
  induction ids with
  | nil =>
    intro reg new x h
    exact Or.inl h
  | cons a rest ih =>
    intro reg new x h
    unfold markIds at h
    rcases ih _ _ x h with h1 | h1
    · split_ifs at h1 with h2
      · rcases List.mem_append.mp h1 with h3 | h3
        · exact Or.inl h3
        · exact Or.inr (by simp_all)
      · exact Or.inl h1
    · exact Or.inr (List.mem_cons_of_mem _ h1)

theorem markIds_snd_mono (ids : List String) :
    ∀ (reg : Entries) (new : List String) (x : String),
      x ∈ new → x ∈ (markIds ids reg new).2 := by
  induction ids with
  | nil =>
    intro reg new x h
    exact h
  | cons a rest ih =>
    intro reg new x h
    unfold markIds
    apply ih
    split_ifs
    · exact List.mem_append_left _ h
    · exact h

theorem markIds_covers (ids : List String) :
    ∀ (reg : Entries) (new : List String) (id : String), id ∈ ids →
      reg.lookup id = some 1 ∨ id ∈ (markIds ids reg new).2 := by
  induction ids with
  | nil =>
    intro reg new id h
    simp at h
  | cons a rest ih =>
    intro reg new id h
    have hhead : reg.lookup a = some 1 ∨ a ∈ (markIds (a :: rest) reg new).2 := by
      by_cases h1 : index (some reg) a = 1
      · obtain ⟨es, hes, hl⟩ := index_eq_one (some reg) a h1
        simp only [Option.some.injEq] at hes
        subst hes
        exact Or.inl hl
      · right
        unfold markIds
        apply markIds_snd_mono
        rw [if_pos h1]
        simp
    rcases List.mem_cons.mp h with h1 | h1
    · subst h1
      exact hhead
    · by_cases h2 : id = a
      · subst h2
        exact hhead
      · rcases ih (assign reg a 1)
            (if index (some reg) a ≠ 1 then new ++ [a] else new) id h1 with h3 | h3
        · rw [lookup_assign, if_neg h2] at h3
          exact Or.inl h3
        · right
          unfold markIds
          exact h3

theorem putAccounts_state_account (ids : List String) :
    ∀ (state : String → Bytes) (id : String),
      (putAccounts ids { state := state, faults := [] }).2.state (accountPrefix ++ id)
        = if id ∈ ids then some (JSON.obj []) else state (accountPrefix ++ id) := by
  induction ids with
  | nil =>
    intro state id
    simp [putAccounts]
  | cons a rest ih =>
    intro state id
    unfold putAccounts
    rw [putState_of_faults_nil _ rfl]
    simp only
    rw [ih]
    by_cases h1 : id ∈ rest
    · simp [h1]
    · by_cases h2 : id = a
      · subst h2
        simp [h1, marshalAccount]
      · have h3 : accountPrefix ++ id ≠ accountPrefix ++ a :=
          fun h => h2 (accountKey_injective id a h)
        simp [h1, h2, h3]

theorem transfer_state_key (stub : Stub) (args : List String) (key : String) :
    (transfer stub args).2.state key = stub.state key
      ∨ ((transfer stub args).2.state key = some (JSON.obj [])
        ∧ ∃ id es, key = accountPrefix ++ id
          ∧ unmarshalMap (stub.state "AccountIds") = some (some es)
          ∧ es.lookup id = some 1) := by
  generalize hres : transfer stub args = res
  unfold transfer at hres
  split at hres
  · next fromId toId amountArg token =>
    split at hres
    · rw [← hres]; exact Or.inl rfl
    · split at hres
      · next e stub1 hg =>
        have hs1 := getAllAccountIds_state stub
        rw [hg] at hs1
        rw [← hres]
        exact Or.inl (by rw [hs1])
      · next registeredIds stub1 hg =>
        have hs1 := getAllAccountIds_state stub
        rw [hg] at hs1
        have hreg := unmarshalMap_of_getAllAccountIds stub registeredIds (by rw [hg])
        split at hres
        · rw [← hres]; exact Or.inl (by rw [hs1])
        · split at hres
          · rw [← hres]; exact Or.inl (by rw [hs1])
          · next hfrom =>
            split at hres
            · rw [← hres]; exact Or.inl (by rw [hs1])
            · next hto =>
              obtain ⟨es, hes, hlf⟩ := index_eq_one registeredIds fromId (by simpa using hfrom)
              obtain ⟨es2, hes2, hlt⟩ := index_eq_one registeredIds toId (by simpa using hto)
              rw [hes] at hes2
              simp only [Option.some.injEq] at hes2
              subst hes2
              rw [hes] at hreg
              split at hres
              · next e stub2 hg2 =>
                have hs2 := getAccount_state stub1 fromId
                rw [hg2] at hs2
                rw [← hres]
                exact Or.inl (by rw [hs2, hs1])
              · next fromAccount stub2 hg2 =>
                have hs2 := getAccount_state stub1 fromId
                rw [hg2] at hs2
                split at hres
                · rw [← hres]; exact Or.inl (by rw [hs2, hs1])
                · split at hres
                  · next e stub3 hg3 =>
                    have hs3 := getAccount_state stub2 toId
                    rw [hg3] at hs3
                    rw [← hres]
                    exact Or.inl (by rw [hs3, hs2, hs1])
                  · next toAccount stub3 hg3 =>
                    have hs3 := getAccount_state stub2 toId
                    rw [hg3] at hs3
                    split at hres
                    · next stub4 hp4 =>
                      have hs4 := putState_false_state _ _ _ _ hp4
                      rw [← hres]
                      exact Or.inl (by rw [hs4, hs3, hs2, hs1])
                    · next stub4 hp4 =>
                      have hs4 := putState_true_state _ _ _ _ hp4
                      have hkey4 : stub4.state key = stub.state key
                          ∨ (stub4.state key = some (JSON.obj [])
                            ∧ key = accountPrefix ++ fromId) := by
                        rw [hs4, hs3, hs2, hs1]
                        by_cases hk : key = accountPrefix ++ fromId
                        · exact Or.inr ⟨by simp [hk, marshalAccount], hk⟩
                        · exact Or.inl (by simp [hk])
                      split at hres
                      · next stub5 hp5 =>
                        have hs5 := putState_false_state _ _ _ _ hp5
                        rw [← hres]
                        simp only [hs5]
                        rcases hkey4 with h4 | h4
                        · exact Or.inl h4
                        · exact Or.inr ⟨h4.1, fromId, es, h4.2, hreg, hlf⟩
                      · next stub5 hp5 =>
                        have hs5 := putState_true_state _ _ _ _ hp5
                        rw [← hres]
                        simp only [hs5]
                        by_cases hk : key = accountPrefix ++ toId
                        · exact Or.inr ⟨by simp [hk, marshalAccount], toId, es, hk, hreg, hlt⟩
                        · simp only [hk, if_false]
                          rcases hkey4 with h4 | h4
                          · exact Or.inl h4
                          · exact Or.inr ⟨h4.1, fromId, es, h4.2, hreg, hlf⟩
  · rw [← hres]; exact Or.inl rfl

theorem transfer_registry_unchanged (stub : Stub) (args : List String) :
    (transfer stub args).2.state "AccountIds" = stub.state "AccountIds" := by
  rcases transfer_state_key stub args "AccountIds" with h | ⟨_, id, _, hk, _, _⟩
  · exact h
  · exact absurd hk.symm (accountKey_ne_registryKey id)

theorem registerAccounts_state (state : String → Bytes) (arg : String) (ids : List String)
    (hids : unmarshalStrings (jsonScan arg) = some ids) :
    unmarshalMap ((registerAccounts { state := state, faults := [] } [arg]).2.state "AccountIds")
        = some (some (markIds ids
            (startRegistry (GetAllAccountIds { state := state, faults := [] }).1) []).1)
      ∧ ∀ id, (registerAccounts { state := state, faults := [] } [arg]).2.state
          (accountPrefix ++ id)
        = if id ∈ (markIds ids
            (startRegistry (GetAllAccountIds { state := state, faults := [] }).1) []).2
          then some (JSON.obj []) else state (accountPrefix ++ id) := by
  constructor
  · have h := (registerAccounts_result { state := state, faults := [] } arg ids rfl hids).2.2
    exact unmarshalMap_of_getAllAccountIds _ _ (by rw [h])
  · intro id
    rw [registerAccounts_of_faults_nil { state := state, faults := [] } arg ids rfl hids,
      putAccounts_state_account]
    simp only [accountKey_ne_registryKey id, if_false]

/-! ## Invariants of the world state -/

theorem transfer_preserves_recordsRegistered (stub : Stub) (args : List String)
    (h : RecordsRegistered stub.state) : RecordsRegistered (transfer stub args).2.state := by
  intro id hrec
  rw [transfer_registry_unchanged]
  rcases transfer_state_key stub args (accountPrefix ++ id) with h1 | ⟨_, id1, es, hk, hreg, hl⟩
  · rw [h1] at hrec
    exact h id hrec
  · have hid : id = id1 := accountKey_injective id id1 hk
    subst hid
    exact ⟨es, hreg, hl⟩

theorem transfer_preserves_registeredHaveRecords (stub : Stub) (args : List String)
    (h : RegisteredHaveRecords stub.state) :
    RegisteredHaveRecords (transfer stub args).2.state := by
  intro es id hreg hl
  rw [transfer_registry_unchanged] at hreg
  rcases transfer_state_key stub args (accountPrefix ++ id) with h1 | ⟨h1, _⟩
  · rw [h1]
    exact h es id hreg hl
  · exact h1

theorem registerAccounts_preserves_recordsRegistered (state : String → Bytes)
    (args : List String) (h : RecordsRegistered state) :
    RecordsRegistered (registerAccounts { state := state, faults := [] } args).2.state := by
  rcases args with _ | ⟨arg, _ | ⟨b, rest⟩⟩
  · exact h
  · cases hids : unmarshalStrings (jsonScan arg) with
    | none =>
      simp only [registerAccounts, hids]
      exact h
    | some ids =>
      obtain ⟨hreg, hrec⟩ := registerAccounts_state state arg ids hids
      intro id hne
      refine ⟨_, hreg, ?_⟩
      rw [markIds_fst_lookup]
      rw [hrec id] at hne
      by_cases hnew : id ∈ (markIds ids
          (startRegistry (GetAllAccountIds { state := state, faults := [] }).1) []).2
      · rcases markIds_snd_subset ids _ [] id hnew with h1 | h1
        · simp at h1
        · rw [if_pos h1]
      · rw [if_neg hnew] at hne
        obtain ⟨es, hes, hl⟩ := h id hne
        rw [startRegistry_of_readable state es hes, hl]
        simp
  · exact h

theorem registerAccounts_preserves_registeredHaveRecords (state : String → Bytes)
    (args : List String) (h : RegisteredHaveRecords state) :
    RegisteredHaveRecords (registerAccounts { state := state, faults := [] } args).2.state := by
  rcases args with _ | ⟨arg, _ | ⟨b, rest⟩⟩
  · exact h
  · cases hids : unmarshalStrings (jsonScan arg) with
    | none =>
      simp only [registerAccounts, hids]
      exact h
    | some ids =>
      obtain ⟨hreg, hrec⟩ := registerAccounts_state state arg ids hids
      intro es id hes hl
      rw [hreg] at hes
      simp only [Option.some.injEq] at hes
      subst hes
      rw [hrec id]
      by_cases hnew : id ∈ (markIds ids
          (startRegistry (GetAllAccountIds { state := state, faults := [] }).1) []).2
      · rw [if_pos hnew]
      · rw [if_neg hnew]
        have hstart : (startRegistry
            (GetAllAccountIds { state := state, faults := [] }).1).lookup id = some 1 := by
          by_cases hmem : id ∈ ids
          · rcases markIds_covers ids _ [] id hmem with h1 | h1
            · exact h1
            · exact absurd h1 hnew
          · rw [markIds_fst_lookup, if_neg hmem] at hl
            exact hl
        exact h _ id (readable_of_startRegistry _ id 1 hstart) hstart
  · exact h

theorem run_preserves_recordsRegistered (state : String → Bytes) (call : Call)
    (hfun : call.function ≠ "init") (hfaults : call.faults = [])
    (h : RecordsRegistered state) : RecordsRegistered (Call.run state call) := by
  unfold Call.run Invoke
  rw [if_neg hfun, hfaults]
  split_ifs
  · exact transfer_preserves_recordsRegistered _ _ h
  · exact registerAccounts_preserves_recordsRegistered _ _ h
  · rw [(addLoyalty_fails _ _).2]
    exact h
  · rw [(removeLoyalty_fails _ _).2]
    exact h
  · exact h

theorem run_preserves_registeredHaveRecords (state : String → Bytes) (call : Call)
    (hfaults : call.faults = [])
    (h : RegisteredHaveRecords state) : RegisteredHaveRecords (Call.run state call) := by
  unfold Call.run Invoke
  rw [hfaults]
  split_ifs
  · intro es id hes _
    have hput : (Init { state := state, faults := [] } "init" call.args).2.state "AccountIds"
        = some JSON.null := by
      unfold Init
      rw [putState_of_faults_nil _ rfl]
      simp [marshalMap]
    rw [hput] at hes
    simp [unmarshalMap] at hes
  · exact transfer_preserves_registeredHaveRecords _ _ h
  · exact registerAccounts_preserves_registeredHaveRecords _ _ h
  · rw [(addLoyalty_fails _ _).2]
    exact h
  · rw [(removeLoyalty_fails _ _).2]
    exact h
  · exact h

theorem foldl_run_invariant (P : (String → Bytes) → Prop) (calls : List Call) :
    ∀ (state : String → Bytes),
      (∀ st c, c ∈ calls → P st → P (Call.run st c)) → P state →
      P (calls.foldl Call.run state) := by
  induction calls with
  | nil =>
    intro state _ h
    exact h
  | cons c rest ih =>
    intro state hstep h
    rw [List.foldl_cons]
    exact ih _ (fun st c1 hc1 => hstep st c1 (List.mem_cons_of_mem _ hc1))
      (hstep state c (List.mem_cons_self _ _) h)

theorem deployed_state_account (initFaults : List Bool) (id : String) :
    (Init { state := fun _ => none, faults := initFaults } "init" []).2.state
      (accountPrefix ++ id) = none := by
  rcases init_state_key { state := fun _ => none, faults := initFaults } "init" []
      (accountPrefix ++ id) with h | ⟨h, _⟩
  · exact h
  · exact absurd h (accountKey_ne_registryKey id)

theorem deployed_state_registry (initFaults : List Bool) (es : Entries) :
    unmarshalMap ((Init { state := fun _ => none, faults := initFaults } "init" []).2.state
      "AccountIds") ≠ some (some es) := by
  rcases init_state_key { state := fun _ => none, faults := initFaults } "init" []
      "AccountIds" with h | ⟨_, h⟩
  · rw [h]
    simp [unmarshalMap]
  · rw [h]
    simp [unmarshalMap]

theorem ledgerAfter_recordsRegistered (initFaults : List Bool) (calls : List Call)
    (hcalls : ∀ c ∈ calls, c.function ≠ "init" ∧ c.faults = []) :
    RecordsRegistered (ledgerAfter initFaults calls) := by
  unfold ledgerAfter
  apply foldl_run_invariant RecordsRegistered
  · intro st c hc h
    exact run_preserves_recordsRegistered st c (hcalls c hc).1 (hcalls c hc).2 h
  · intro id hne
    exact absurd (deployed_state_account initFaults id) hne

theorem ledgerAfter_registeredHaveRecords (initFaults : List Bool) (calls : List Call)
    (hcalls : ∀ c ∈ calls, c.faults = []) :
    RegisteredHaveRecords (ledgerAfter initFaults calls) := by
  unfold ledgerAfter
  apply foldl_run_invariant RegisteredHaveRecords
  · intro st c hc h
    exact run_preserves_registeredHaveRecords st c (hcalls c hc) h
  · intro es id hes _
    exact absurd hes (deployed_state_registry initFaults es)

/-! ## Balances -/

/-- C11, the code at the failing input: after `Init` and the registration of alice and
bob, a transfer of -5 from alice to bob with the valid token passes the only check on the
amount, `from.balance < amount`, and returns success; from the accounts it read, both the
zero `Account`, it computes for bob, whom it credits, the balance -5, which is below zero,
and this is the account it marshals and puts under the key of bob.  The bytes stored are
the empty object all the same (see C13). -/
theorem C11_negative_amount_leaves_negative_balance :
    ParseFloat "-5" = some (Float64.neg (Float64.ofNat 5))
      ∧ (GetAccount aliceBob "alice").1 = Except.ok Account.zero
      ∧ (GetAccount aliceBob "bob").1 = Except.ok Account.zero
      ∧ Float64.lt Account.zero.balance (Float64.neg (Float64.ofNat 5)) = false
      ∧ (transfer aliceBob ["alice", "bob", "-5", securityToken]).1 = Reply.ok none
      ∧ (moveBalance Account.zero Account.zero (Float64.neg (Float64.ofNat 5))).2.balance
        = Float64.neg (Float64.ofNat 5)
      ∧ Float64.lt
          (moveBalance Account.zero Account.zero (Float64.neg (Float64.ofNat 5))).2.balance
          Float64.zero = true
      ∧ (transfer aliceBob ["alice", "bob", "-5", securityToken]).2.state "acct:bob"
        = some (marshalAccount
            (moveBalance Account.zero Account.zero (Float64.neg (Float64.ofNat 5))).2) := by
  refine ⟨?_, rfl, rfl, ?_, ?_, ?_, ?_, ?_⟩
  · decide
  · decide
  · rfl
  · decide
  · decide
  · rfl

/-- C12, the code at the failing input: after `Init` and the registration of alice and
bob, a transfer of 2500.0 from alice to alice with the valid token returns the
insufficient-funds error and leaves the ledger as it was, because the balance read for
alice is 0 (see C1).  Moreover the account `transfer` puts last under the one key is the
credited one: from an account with balance 10000.0 on both sides it computes 7500.0 for
the first write and 12500.0 for the second, not 10000.0. -/
theorem C12_self_transfer_after_registration_fails :
    ParseFloat "2500.0" = some (Float64.ofNat 2500)
      ∧ transfer aliceBob ["alice", "alice", "2500.0", securityToken]
        = (Reply.error "error not enough resources on from account", aliceBob)
      ∧ (moveBalance { id := "alice", balance := Float64.ofNat 10000, loyalty := 0 }
          { id := "alice", balance := Float64.ofNat 10000, loyalty := 0 }
          (Float64.ofNat 2500)).1.balance = Float64.ofNat 7500
      ∧ (moveBalance { id := "alice", balance := Float64.ofNat 10000, loyalty := 0 }
          { id := "alice", balance := Float64.ofNat 10000, loyalty := 0 }
          (Float64.ofNat 2500)).2.balance = Float64.ofNat 12500
      ∧ Float64.ofNat 12500 ≠ Float64.ofNat 10000 := by
  refine ⟨?_, rfl, ?_, ?_, ?_⟩ <;> decide

/-! ## The JSON form of `Account` -/

/-- C13, the code on every `Account` and at one with id alice, balance 10000.0 and loyalty
7: the JSON encoding is the empty object whatever the account, decoding it into a fresh
`Account` variable gives the zero `Account`, `GetAccountDetails` on a ledger holding the
encoding returns the empty object, and the zero `Account` differs from the one encoded in
id, balance and loyalty. -/
theorem C13_account_encoding_drops_fields :
    (∀ a : Account, marshalAccount a = JSON.obj []
        ∧ unmarshalAccount (some (marshalAccount a)) Account.zero = some Account.zero)
      ∧ (Query
          { state := fun _ =>
              some (marshalAccount
                { id := "alice", balance := Float64.ofNat 10000, loyalty := 7 }),
            faults := [] } "GetAccountDetails" ["alice"]).1 = Reply.ok (some (JSON.obj []))
      ∧ Account.zero.id ≠ "alice"
      ∧ Account.zero.balance ≠ Float64.ofNat 10000
      ∧ Account.zero.loyalty ≠ 7 := by
  refine ⟨fun a => ⟨rfl, rfl⟩, rfl, ?_, ?_, ?_⟩ <;> decide

/-! ## Dispatch -/

/-- C14: `Invoke` with an operation name other than the five it dispatches, and `Query`
with a name other than the two it dispatches, return the unknown-function error, whose
message ends with the name given, and leave the ledger exactly as it was, whatever the
ledger and the arguments. -/
theorem C14_unknown_operation (stub : Stub) (function : String) (args : List String) :
    (function ∉ ["init", "transfer", "registerAccounts", "addLoyalty", "removeLoyalty"] →
        Invoke stub function args
          = (Reply.error ("Received unknown function invocation: " ++ function), stub))
      ∧ (function ∉ ["GetAllAccountIds", "GetAccountDetails"] →
        Query stub function args
          = (Reply.error ("Received unknown function query: " ++ function), stub)) := by
  constructor
  · intro h
    simp only [List.mem_cons, List.mem_singleton, List.not_mem_nil, or_false, not_or] at h
    obtain ⟨h1, h2, h3, h4, h5⟩ := h
    unfold Invoke
    rw [if_neg h1, if_neg h2, if_neg h3, if_neg h4, if_neg h5]
  · intro h
    simp only [List.mem_cons, List.mem_singleton, List.not_mem_nil, or_false, not_or] at h
    obtain ⟨h1, h2⟩ := h
    unfold Query
    rw [if_neg h1, if_neg h2]

/-- C14 at the name `mint` for `Invoke` and `GetBalance` for `Query`. -/
theorem C14_unknown_operation_witness :
    Invoke aliceBob "mint" ["alice", "1000"]
        = (Reply.error ("Received unknown function invocation: " ++ "mint"), aliceBob)
      ∧ Query aliceBob "GetBalance" ["alice"]
        = (Reply.error ("Received unknown function query: " ++ "GetBalance"), aliceBob) :=
  ⟨(C14_unknown_operation aliceBob "mint" ["alice", "1000"]).1 (by decide),
    (C14_unknown_operation aliceBob "GetBalance" ["alice"]).2 (by decide)⟩

/-! ## Initialisation -/

/-- C15: on a ledger whose store calls succeed, `Init` returns success; afterwards
`GetAllAccountIds` succeeds with a registry (the nil map, which the query returns as
`null`) in which no id is flagged, every key other than `"AccountIds"` holds what it held
before, and a second `Init` leaves the ledger exactly as the first left it. -/
theorem C15_init_idempotent (stub : Stub) (function : String) (args : List String)
    (hfaults : stub.faults = []) :
    (Init stub function args).1 = Reply.ok none
      ∧ GetAllAccountIds (Init stub function args).2
        = (Except.ok none, (Init stub function args).2)
      ∧ (Query (Init stub function args).2 "GetAllAccountIds" []).1 = Reply.ok (some JSON.null)
      ∧ (∀ id, index none id ≠ 1)
      ∧ (∀ key, key ≠ "AccountIds" → (Init stub function args).2.state key = stub.state key)
      ∧ Init (Init stub function args).2 function args = Init stub function args := by
  have hinit : Init stub function args
      = (Reply.ok none,
          { state := fun k => if k = "AccountIds" then some JSON.null else stub.state k,
            faults := [] }) := by
    unfold Init
    rw [putState_of_faults_nil stub hfaults]
    rfl
  have hget : GetAllAccountIds (Init stub function args).2
      = (Except.ok none, (Init stub function args).2) := by
    rw [hinit, getAllAccountIds_eq_of_faults_nil _ rfl]
    rfl
  refine ⟨rfl, hget, ?_, ?_, ?_, ?_⟩
  · unfold Query
    rw [if_pos rfl, hget]
    rfl
  · intro id
    simp [index]
  · intro key hkey
    rw [hinit]
    simp [hkey]
  · rw [hinit]
    unfold Init
    rw [putState_of_faults_nil _ rfl]
    simp only [marshalMap, Prod.mk.injEq, Stub.mk.injEq, and_true, true_and]
    funext k
    by_cases hk : k = "AccountIds" <;> simp [hk]

/-- C15 at the ledger with alice and bob registered. -/
theorem C15_init_idempotent_witness :
    (Init aliceBob "init" []).1 = Reply.ok none
      ∧ GetAllAccountIds (Init aliceBob "init" []).2
        = (Except.ok none, (Init aliceBob "init" []).2)
      ∧ (Query (Init aliceBob "init" []).2 "GetAllAccountIds" []).1 = Reply.ok (some JSON.null)
      ∧ (∀ id, index none id ≠ 1)
      ∧ (∀ key, key ≠ "AccountIds" → (Init aliceBob "init" []).2.state key = aliceBob.state key)
      ∧ Init (Init aliceBob "init" []).2 "init" [] = Init aliceBob "init" [] :=
  C15_init_idempotent aliceBob "init" [] rfl

theorem unregistered_query_fails_without_init (initFaults : List Bool) (calls : List Call)
    (id : String) (faults : List Bool)
    (hcalls : ∀ c ∈ calls, c.function ≠ "init" ∧ c.faults = [])
    (hunreg : ∀ reg,
      (GetAllAccountIds { state := ledgerAfter initFaults calls, faults := [] }).1
        = Except.ok reg → index reg id ≠ 1) :
    ledgerAfter initFaults calls (accountPrefix ++ id) = none
      ∧ ∃ msg, (Query { state := ledgerAfter initFaults calls, faults := faults }
          "GetAccountDetails" [id]).1 = Reply.error msg := by
  have hnone : ledgerAfter initFaults calls (accountPrefix ++ id) = none := by
    by_contra hne
    obtain ⟨es, hes, hl⟩ := ledgerAfter_recordsRegistered initFaults calls hcalls id hne
    apply hunreg (some es)
    · rw [getAllAccountIds_eq_of_faults_nil _ rfl]
      simp only [hes]
    · simp [index, hl]
  refine ⟨hnone, ?_⟩
  unfold Query
  rw [if_neg (by decide), if_pos rfl]
  simp only
  unfold GetAccount Stub.GetState
  simp only
  rcases faults with _ | ⟨b, rest⟩
  · simp only [hnone, unmarshalAccount]
    exact ⟨_, rfl⟩
  · cases b
    · simp only [hnone, unmarshalAccount]
      exact ⟨_, rfl⟩
    · exact ⟨_, rfl⟩

/-! ## Records and registry on reachable ledgers -/

/-- C16, the code at the failing input: after deployment, the registration of alice and
bob and an `init` call, no store call failing, the registry reads as the nil map, which
flags nobody, and the `GetAccountDetails` query for alice still succeeds, because `init`,
the reset of the chaincode state, has left her record in the store. -/
theorem C16_record_survives_init :
    (GetAllAccountIds
        { state := ledgerAfter []
            [{ function := "registerAccounts", args := ["[\"alice\",\"bob\"]"], faults := [] },
              { function := "init", args := [], faults := [] }],
          faults := [] }).1 = Except.ok none
      ∧ index none "alice" = 0
      ∧ (Query
        { state := ledgerAfter []
            [{ function := "registerAccounts", args := ["[\"alice\",\"bob\"]"], faults := [] },
              { function := "init", args := [], faults := [] }],
          faults := [] } "GetAccountDetails" ["alice"]).1 = Reply.ok (some (JSON.obj [])) := by
  refine ⟨rfl, rfl, rfl⟩

/-- C17: in every world state reached from deployment by `Invoke` calls whose store calls
all succeed, every id that the registry flags with 1 has a record stored under
`"acct:" + id`, the empty object the chaincode writes, and `GetAccount` reads it. -/
theorem C17_registered_have_records (initFaults : List Bool) (calls : List Call)
    (reg : IntMap) (id : String)
    (hcalls : ∀ c ∈ calls, c.faults = [])
    (hreg : (GetAllAccountIds { state := ledgerAfter initFaults calls, faults := [] }).1
      = Except.ok reg)
    (hid : index reg id = 1) :
    ledgerAfter initFaults calls (accountPrefix ++ id) = some (JSON.obj [])
      ∧ GetAccount { state := ledgerAfter initFaults calls, faults := [] } id
        = (Except.ok Account.zero, { state := ledgerAfter initFaults calls, faults := [] }) := by
  obtain ⟨es, hes, hl⟩ := index_eq_one reg id hid
  subst hes
  have hrec := ledgerAfter_registeredHaveRecords initFaults calls hcalls es id
    (unmarshalMap_of_getAllAccountIds _ _ hreg) hl
  exact ⟨hrec, getAccount_of_empty_record _ id hrec⟩

/-- C17 at bob after deployment, the registration of alice and bob, an `init` call, the
registration of bob and carol, and a transfer of 0 from bob to carol. -/
theorem C17_registered_have_records_witness :
    ledgerAfter []
        [{ function := "registerAccounts", args := ["[\"alice\",\"bob\"]"], faults := [] },
          { function := "init", args := [], faults := [] },
          { function := "registerAccounts", args := ["[\"bob\",\"carol\"]"], faults := [] },
          { function := "transfer", args := ["bob", "carol", "0", securityToken], faults := [] }]
        (accountPrefix ++ "bob") = some (JSON.obj [])
      ∧ GetAccount
        { state := ledgerAfter []
            [{ function := "registerAccounts", args := ["[\"alice\",\"bob\"]"], faults := [] },
              { function := "init", args := [], faults := [] },
              { function := "registerAccounts", args := ["[\"bob\",\"carol\"]"],
                faults := [] },
              { function := "transfer", args := ["bob", "carol", "0", securityToken],
                faults := [] }],
          faults := [] } "bob"
        = (Except.ok Account.zero,
          { state := ledgerAfter []
              [{ function := "registerAccounts", args := ["[\"alice\",\"bob\"]"],
                  faults := [] },
                { function := "init", args := [], faults := [] },
                { function := "registerAccounts", args := ["[\"bob\",\"carol\"]"],
                  faults := [] },
                { function := "transfer", args := ["bob", "carol", "0", securityToken],
                  faults := [] }],
            faults := [] }) :=
  C17_registered_have_records []
    [{ function := "registerAccounts", args := ["[\"alice\",\"bob\"]"], faults := [] },
      { function := "init", args := [], faults := [] },
      { function := "registerAccounts", args := ["[\"bob\",\"carol\"]"], faults := [] },
      { function := "transfer", args := ["bob", "carol", "0", securityToken], faults := [] }]
    (some [("bob", 1), ("carol", 1)]) "bob"
    (by
      intro c hc
      simp only [List.mem_cons, List.mem_singleton, List.not_mem_nil, or_false] at hc
      rcases hc with h | h | h | h <;> subst h <;> rfl)
    rfl rfl

/-! ## Store failures -/

/-- C18, the code at two failing store calls on the ledger with alice and bob registered:
`init` whose `PutState` fails returns success and leaves the registry in place;
`registerAccounts` for carol whose registry read fails returns success as well and goes on
to write a registry that holds carol alone, so alice and bob are no longer registered. -/
theorem C18_failed_store_calls_pass_unreported :
    Invoke { state := aliceBob.state, faults := [true] } "init" []
        = (Reply.ok none, aliceBob)
      ∧ (GetAllAccountIds { state := aliceBob.state, faults := [true] }).1
        = Except.error "Error retrieving account Ids"
      ∧ (Invoke { state := aliceBob.state, faults := [true] } "registerAccounts"
          ["[\"carol\"]"]).1 = Reply.ok none
      ∧ aliceBob.state "AccountIds"
        = some (JSON.obj [("alice", JSON.int 1), ("bob", JSON.int 1)])
      ∧ (Invoke { state := aliceBob.state, faults := [true] } "registerAccounts"
          ["[\"carol\"]"]).2.state "AccountIds" = some (JSON.obj [("carol", JSON.int 1)]) := by
  refine ⟨rfl, rfl, rfl, rfl, rfl⟩

/-! ## Loyalty operations on every input -/

/-- C19: whatever the ledger, the fate of its store calls and the argument list,
`addLoyalty` and `removeLoyalty` return an error and leave the world state as it was; the
shared secret, which `args[2]` has to equal before it is parsed as the number of points,
is rejected by `ParseInt`. -/
theorem C19_loyalty_operations_always_fail (stub : Stub) (args : List String) :
    ((∃ msg, (addLoyalty stub args).1 = Reply.error msg)
        ∧ (addLoyalty stub args).2.state = stub.state)
      ∧ ((∃ msg, (removeLoyalty stub args).1 = Reply.error msg)
        ∧ (removeLoyalty stub args).2.state = stub.state)
      ∧ ParseInt securityToken = none :=
  ⟨addLoyalty_fails stub args, removeLoyalty_fails stub args, parseInt_securityToken⟩

/-! ## Absent arguments -/

/-- C20, the code at the failing input: the `GetAccountDetails` query with an empty
argument list reads `args[0]` and ends in a run-time panic, neither a result nor an
error. -/
theorem C20_query_without_arguments_panics :
    Query aliceBob "GetAccountDetails" [] = (Reply.panicked, aliceBob) := by
  rfl

end Chaincode
